import Mathlib

/-!
Shallow embedding of the reconciliation and repair engine of the
BankStatementToExcel repository (src/bstpf/pdf_processor.py and
src/bstpf/cg_pdf_processor.py), with proofs settling the specification
claims about it.

A pandas cell is modelled by `Cell`: a numeric value (`Cell.num`, a
rational standing for a parsed float), a non-numeric string
(`Cell.text`), or a null (`Cell.missing`, standing for NaN/None/NaT).
A string that pandas to_numeric would parse is modelled directly as
`Cell.num`, since every use in the source first coerces it and the
null test treats parsed and unparsed values alike.  A DataFrame is an
ordered list of named columns, each holding its cells in row order.
-/

inductive Cell where
  | missing : Cell
  | num : ℚ → Cell
  | text : String → Cell
deriving DecidableEq

/-- pd.isnull: true exactly on NaN/None; strings are notnull. -/
def Cell.isna : Cell → Bool
  | .missing => true
  | _ => false

/-- The numeric reading of a cell, when it has one. -/
def Cell.toNum? : Cell → Option ℚ
  | .num q => some q
  | _ => none

/-- pd.to_numeric(col, errors=coerce): non-convertible becomes NaN. -/
def coerceNa (c : Cell) : Cell :=
  match c.toNum? with
  | some q => .num q
  | none => .missing

/-- pd.to_numeric(col, errors=coerce).fillna(0): non-convertible becomes 0. -/
def coerceFill0 (c : Cell) : Cell := .num (c.toNum?.getD 0)

structure Col where
  name : String
  cells : List Cell
deriving DecidableEq

structure DF where
  cols : List Col
deriving DecidableEq

def DF.names (df : DF) : List String := df.cols.map Col.name

def DF.nRows (df : DF) : ℕ :=
  match df.cols with
  | [] => 0
  | c :: _ => c.cells.length

/-- pandas df.empty: true when either axis has length 0. -/
def DF.isEmpty (df : DF) : Bool :=
  match df.cols with
  | [] => true
  | c :: _ => c.cells.isEmpty

/-- Well-formedness: the table is rectangular. -/
def Rect (df : DF) : Prop := ∀ c ∈ df.cols, c.cells.length = df.nRows

/-- Cells of the first column with the given name, as pandas df[c] reads it. -/
def getCells? : List Col → String → Option (List Cell)
  | [], _ => none
  | c :: cs, s => if c.name = s then some c.cells else getCells? cs s

def DF.getCol? (df : DF) (s : String) : Option (List Cell) := getCells? df.cols s

/-- Pointwise update of the first column with the given name. -/
def mapCellsNamed (s : String) (f : Cell → Cell) : List Col → List Col
  | [] => []
  | c :: cs =>
    if c.name = s then ⟨c.name, c.cells.map f⟩ :: cs else c :: mapCellsNamed s f cs

/-- Replace outright the cells of the first column with the given name. -/
def setCellsNamed (s : String) (new : List Cell) : List Col → List Col
  | [] => []
  | c :: cs =>
    if c.name = s then ⟨c.name, new⟩ :: cs else c :: setCellsNamed s new cs

/-- df[s] = v for a scalar v: overwrite the column when present, else append it. -/
def DF.assignScalar (df : DF) (s : String) (v : Cell) : DF :=
  if (getCells? df.cols s).isSome then ⟨mapCellsNamed s (fun _ => v) df.cols⟩
  else ⟨df.cols ++ [⟨s, List.replicate df.nRows v⟩]⟩

/-- One row of the column-shift repair: move the next column value into
ClosingBalance and null the source exactly when the balance is null and
the next cell is not (pdf_processor.py lines 66-71). -/
def shiftPair (cb nx : Cell) : Cell × Cell :=
  if cb.isna && !nx.isna then (nx, Cell.missing) else (cb, nx)

/-- Column-shift repair over the column list: locate the first column
named ClosingBalance; when a column follows it, apply `shiftPair` row by
row to the pair (pdf_processor.py lines 56-72). -/
def shiftCols : List Col → List Col
  | [] => []
  | [c] => [c]
  | c :: d :: rest =>
    if c.name = "ClosingBalance" then
      ⟨c.name, List.zipWith (fun a b => (shiftPair a b).1) c.cells d.cells⟩ ::
        ⟨d.name, List.zipWith (fun a b => (shiftPair a b).2) c.cells d.cells⟩ :: rest
    else c :: shiftCols (d :: rest)

def shiftRepair (df : DF) : DF := ⟨shiftCols df.cols⟩

/-- The message of the KeyError raised when a required column is absent,
as formatted by pdf_processor.py line 117. -/
def keyErr (c : String) : String :=
  "Critical Error: A required column was not found in the DataFrame -> \x27"
    ++ c ++ "\x27"

/-- check_df[s] = pd.to_numeric(check_df[s], ...): reading a missing
column raises KeyError. -/
def coerceColE (df : DF) (s : String) (f : Cell → Cell) : Except String DF :=
  match getCells? df.cols s with
  | none => .error (keyErr s)
  | some _ => .ok ⟨mapCellsNamed s f df.cols⟩

inductive Verdict where
  | ok
  | missingPrevious
  | missingCurrent
  | mismatch (delta : ℚ)
  | criticalOpening
deriving DecidableEq

/-- Executable absolute value on the rationals. -/
def qabs (q : ℚ) : ℚ := if q < 0 then -q else q

/-- Executable floor on the rationals. -/
def qfloor (q : ℚ) : ℤ := q.num / q.den

/-- Executable round-half-up on the rationals. -/
def qround (q : ℚ) : ℤ := qfloor (q + 1 / 2)

theorem qabs_eq_abs (q : ℚ) : qabs q = |q| := by
  unfold qabs
  split
  · exact (abs_of_neg (by assumption)).symm
  · exact (abs_of_nonneg (le_of_not_lt (by assumption))).symm

theorem qfloor_eq_floor (q : ℚ) : qfloor q = ⌊q⌋ := (Rat.floor_def).symm

theorem qround_eq_round (q : ℚ) : qround q = round q := by
  rw [round_eq, qround, qfloor_eq_floor]

/-- Rounding to two decimal places. -/
def round2 (q : ℚ) : ℚ := ((qround (q * 100) : ℤ) : ℚ) / 100

def pad2 (n : ℕ) : String := if n < 10 then "0" ++ toString n else toString n

/-- Fixed two-decimal rendering of a rational, as the format spec .2f does. -/
def fmt2 (q : ℚ) : String :=
  let m : ℤ := qround (q * 100)
  (if m < 0 then "-" else "") ++ toString (m.natAbs / 100) ++ "." ++ pad2 (m.natAbs % 100)

/-- The status strings written by pdf_processor.py lines 94, 97, 106, 111. -/
def Verdict.message : Verdict → String
  | .ok => "OK"
  | .missingPrevious => "Skipped: Previous balance is missing"
  | .missingCurrent => "Error: Closing Balance is missing or invalid"
  | .mismatch d => "Mismatch by " ++ fmt2 d
  | .criticalOpening => "Error: Opening Balance is missing or invalid"

def statusCell (v : Verdict) : Cell := Cell.text v.message

/-- The verdict the validation loop leaves on row i, reading the coerced
ClosingBalance, WithdrawalAmount and DepositAmount columns
(pdf_processor.py lines 85-111; row 0 is settled by lines 110-111). -/
def rowStatus (cb w dep : List Cell) : ℕ → Verdict
  | 0 => if (cb.getD 0 Cell.missing).isna then .criticalOpening else .ok
  | i + 1 =>
    let prev := cb.getD i Cell.missing
    if prev.isna then .missingPrevious
    else
      let cur := cb.getD (i + 1) Cell.missing
      if cur.isna then .missingCurrent
      else
        let pb := prev.toNum?.getD 0
        let wv := ((w.getD (i + 1) Cell.missing).toNum?).getD 0
        let dv := ((dep.getD (i + 1) Cell.missing).toNum?).getD 0
        let rb := cur.toNum?.getD 0
        let disc := pb - wv + dv - rb
        if 1 / 100 < qabs disc then .mismatch (round2 disc) else .ok

/-- Steps 4 and 5 of the validator: write every row status into the
Validation Status column. -/
def writeVerdicts (df : DF) : DF :=
  let cb := (getCells? df.cols "ClosingBalance").getD []
  let w := (getCells? df.cols "WithdrawalAmount").getD []
  let dep := (getCells? df.cols "DepositAmount").getD []
  ⟨setCellsNamed "Validation Status"
    ((List.range df.nRows).map (fun i => statusCell (rowStatus cb w dep i))) df.cols⟩

/-- The body of the try block of validate_and_correct_balances for a
non-empty frame: shift repair, the three coercions (each able to raise
KeyError), status initialisation, then the verdict passes. -/
def validateBody (df : DF) : Except String DF := do
  let s := shiftRepair df
  let d1 ← coerceColE s "WithdrawalAmount" coerceFill0
  let d2 ← coerceColE d1 "DepositAmount" coerceFill0
  let d3 ← coerceColE d2 "ClosingBalance" coerceNa
  let d4 := d3.assignScalar "Validation Status" (Cell.text "OK")
  return writeVerdicts d4

/-- validate_and_correct_balances (pdf_processor.py lines 34-125): the
empty frame short-circuits; otherwise any error raised by the body is
caught and turned into a scalar Validation Status on the input frame. -/
def validate_and_correct_balances (df : DF) : DF :=
  if df.isEmpty then df.assignScalar "Validation Status" (Cell.text "DataFrame is empty")
  else
    match validateBody df with
    | .ok d => d
    | .error e => df.assignScalar "Validation Status" (Cell.text e)

/-!
Capital-gains computation engine: the per-row derived quantities written
by generate_excel_report in src/bstpf/cg_pdf_processor.py.  Dates are
modelled as day numbers of the proleptic Gregorian calendar, matching
pandas day-resolution datetimes; monetary figures are rationals.
-/

inductive TransactionType where
  | equity_mf
  | debt_mf_indexed
  | debt_mf_slab_rate
  | other_non_equity
  | vda
deriving DecidableEq

structure CgRow where
  transaction_type : TransactionType
  date_of_purchase : ℤ
  date_of_transfer : ℤ
  sale_consideration : ℚ
  net_sale_consideration : ℚ
  actual_cost_of_acquisition : ℚ
  indexed_cost : ℚ
  fmv_on_31012018 : ℚ
deriving DecidableEq

/-- Day number of a Gregorian calendar date (days since 1970-01-01). -/
def days_from_civil (y m d : ℤ) : ℤ :=
  let yy := if m ≤ 2 then y - 1 else y
  let era := (if 0 ≤ yy then yy else yy - 399) / 400
  let yoe := yy - era * 400
  let mp := (m + 9) % 12
  let doy := (153 * mp + 2) / 5 + d - 1
  let doe := yoe * 365 + yoe / 4 - yoe / 100 + doy
  era * 146097 + doe - 719468

/-- Calculated_Holding_Days = (Date_of_Transfer - Date_of_Purchase).dt.days
(cg_pdf_processor.py line 195). -/
def calculated_holding_days (r : CgRow) : ℤ := r.date_of_transfer - r.date_of_purchase

/-- pd.to_datetime of the 2018-02-01 grandfathering cutoff (line 218). -/
def cutoff_2018_02_01 : ℤ := days_from_civil 2018 2 1

/-- is_long_term = HoldingPeriod > 365 (line 217). -/
def is_long_term (r : CgRow) : Bool := decide (365 < calculated_holding_days r)

/-- purchase_before_cutoff (line 218). -/
def purchase_before_cutoff (r : CgRow) : Bool :=
  decide (r.date_of_purchase < cutoff_2018_02_01)

/-- calculate_deductible_cost (lines 219-222). -/
def calculate_deductible_cost (r : CgRow) : ℚ :=
  if !is_long_term r || !purchase_before_cutoff r then r.actual_cost_of_acquisition
  else max r.actual_cost_of_acquisition (min r.fmv_on_31012018 r.net_sale_consideration)

/-- Cost of Acquisition deductible (line 223, rounded at derivation). -/
def cost_of_acquisition_deductible (r : CgRow) : ℚ := round2 (calculate_deductible_cost r)

/-- gain_loss of the equity sheet (line 224). -/
def equity_gain_loss (r : CgRow) : ℚ :=
  round2 (r.net_sale_consideration - cost_of_acquisition_deductible r)

/-- Short term gain u/s 111A (line 225). -/
def short_term_gain_111A (r : CgRow) : ℚ :=
  round2 (if is_long_term r then 0
          else r.net_sale_consideration - r.actual_cost_of_acquisition)

/-- LTCG u/s 112A (line 226): gain_loss.where(is_long_term, 0). -/
def ltcg_112A (r : CgRow) : ℚ := if is_long_term r then equity_gain_loss r else 0

/-- gain of the non-equity sheet (line 241). -/
def debt_plain_gain (r : CgRow) : ℚ :=
  round2 (r.net_sale_consideration - r.actual_cost_of_acquisition)

/-- ltcg_indexed of the non-equity sheet (line 242). -/
def debt_ltcg_indexed (r : CgRow) : ℚ :=
  round2 (r.net_sale_consideration - r.indexed_cost)

/-- Short term gain of the non-equity sheet (lines 243-244):
np.where(HoldingPeriod <= 1095 or slab-rate, gain, 0). -/
def debt_short_term_gain (r : CgRow) : ℚ :=
  if calculated_holding_days r ≤ 1095 ∨
      r.transaction_type = TransactionType.debt_mf_slab_rate then
    debt_plain_gain r
  else 0

/-- LTCG of the non-equity sheet (lines 245-246):
np.where(HoldingPeriod > 1095 and not slab-rate, ltcg_indexed, 0). -/
def debt_ltcg (r : CgRow) : ℚ :=
  if 1095 < calculated_holding_days r ∧
      r.transaction_type ≠ TransactionType.debt_mf_slab_rate then
    debt_ltcg_indexed r
  else 0

/-- Income (loss ignored) of the VDA sheet (line 255):
(Sale_Consideration - Actual_Cost_of_Acquisition).round(2).clip(lower=0). -/
def vda_income (r : CgRow) : ℚ :=
  max (round2 (r.sale_consideration - r.actual_cost_of_acquisition)) 0

/-- The numeric columns coerced by generate_excel_report (line 183). -/
def cg_numeric_cols : List String :=
  ["Quantity", "Sale_Consideration", "Selling_Expenses", "Net_Sale_Consideration",
   "Actual_Cost_of_Acquisition", "Indexed_Cost", "FMV_on_31012018", "Abs_Gain_Loss",
   "Holding_Days"]

/-- The numeric-coercion loop of generate_excel_report (lines 184-186):
every listed column that is present becomes pd.to_numeric(...).fillna(0). -/
def cgCoerceNumeric (df : DF) : DF :=
  cg_numeric_cols.foldl
    (fun d c =>
      if (getCells? d.cols c).isSome then ⟨mapCellsNamed c coerceFill0 d.cols⟩ else d)
    df

/-!
The fallback-retry condition around the transcription call
(pdf_processor.py line 169 and cg_pdf_processor.py line 139), modelled
with Python evaluation semantics: `or` returns its first operand when
that operand is truthy, and a non-empty string is truthy.
-/

inductive PyVal where
  | pstr (s : String)
  | pbool (b : Bool)

def PyVal.truthy : PyVal → Bool
  | .pstr s => !s.isEmpty
  | .pbool b => b

/-- Python a or b. -/
def pyOr (a b : PyVal) : PyVal := if a.truthy then a else b

/-- Whether the first character list starts the second. -/
def leadMatch : List Char → List Char → Bool
  | [], _ => true
  | _ :: _, [] => false
  | a :: as, b :: bs => a == b && leadMatch as bs

/-- Whether the needle occurs contiguously inside the haystack. -/
def subSearch (needle : List Char) : List Char → Bool
  | [] => leadMatch needle []
  | b :: bs => leadMatch needle (b :: bs) || subSearch needle bs

/-- Python sub in s. -/
def pyIn (sub s : String) : Bool := subSearch sub.data s.data

/-- The guard of the retry branch: Python reads the source text
as the disjunction of the literal string and the membership test. -/
def fallback_retry_condition (e : String) : Bool :=
  (pyOr (PyVal.pstr "429") (PyVal.pbool (pyIn "404" e))).truthy

/-- The retry condition the spec says was intended: match only
rate-limit (429) or not-found (404) signals in the error text. -/
def intended_retry_condition (e : String) : Bool := pyIn "429" e || pyIn "404" e

/-!
Reference definitions following the wording of the specification for the
balance-consistency pass, stated over the coerced values of the table
after column-shift repair.
-/

/-- Claim verdict for row 0: CRITICAL exactly when its balance is missing. -/
def refVerdict0 (cb0 : Option ℚ) : Verdict :=
  match cb0 with
  | none => .criticalOpening
  | some _ => .ok

/-- Claim verdict for a row i>0 from the coerced previous balance, own
balance, withdrawal and deposit. -/
def refVerdictStep (prev cur : Option ℚ) (w d : ℚ) : Verdict :=
  match prev with
  | none => .missingPrevious
  | some pb =>
    match cur with
    | none => .missingCurrent
    | some rb =>
      let expected := pb - w + d
      let disc := expected - rb
      if 1 / 100 < qabs disc then .mismatch (round2 disc) else .ok

/-- Cell of the repaired (post column-shift) table at a column and row. -/
def shiftedCell (df : DF) (col : String) (i : ℕ) : Cell :=
  ((getCells? (shiftRepair df).cols col).getD []).getD i Cell.missing

/-- Coerced closing balance of row i (missing marker as none). -/
def cbQ (df : DF) (i : ℕ) : Option ℚ := (shiftedCell df "ClosingBalance" i).toNum?

/-- Coerced withdrawal of row i (missing defaults to 0). -/
def wQ (df : DF) (i : ℕ) : ℚ := ((shiftedCell df "WithdrawalAmount" i).toNum?).getD 0

/-- Coerced deposit of row i (missing defaults to 0). -/
def dQ (df : DF) (i : ℕ) : ℚ := ((shiftedCell df "DepositAmount" i).toNum?).getD 0

/-- The claim's fixed reference verdict for row i of a table. -/
def refVerdictAt (df : DF) : ℕ → Verdict
  | 0 => refVerdict0 (cbQ df 0)
  | i + 1 => refVerdictStep (cbQ df i) (cbQ df (i + 1)) (wQ df (i + 1)) (dQ df (i + 1))

/-- A monetary value expressible in whole hundredths (currency cents). -/
def TwoDec (q : ℚ) : Prop := ∃ m : ℤ, q * 100 = (m : ℚ)

/-- Name of the column immediately following the first ClosingBalance
column, when both exist. -/
def nextAfterCB : List Col → Option String
  | [] => none
  | c :: rest =>
    if c.name = "ClosingBalance" then (rest.head?).map Col.name else nextAfterCB rest

/-- All columns have the same number of cells. -/
def colsRect (cols : List Col) (n : ℕ) : Prop := ∀ c ∈ cols, c.cells.length = n

/-- The success-path hypotheses of the validator: a rectangular, non-empty
table with distinct column names holding the three required columns. -/
def Good (df : DF) : Prop :=
  colsRect df.cols df.nRows ∧ df.names.Nodup ∧
    "WithdrawalAmount" ∈ df.names ∧ "DepositAmount" ∈ df.names ∧
    "ClosingBalance" ∈ df.names ∧ 0 < df.nRows

/-! Helper lemmas about the column-list operations. -/

theorem getCells_isSome_iff (t : String) :
    ∀ cols : List Col, (getCells? cols t).isSome = true ↔ t ∈ cols.map Col.name := by
  intro cols
  induction cols with
  | nil => simp [getCells?]
  | cons c cs ih =>
    by_cases h : c.name = t
    · simp [getCells?, h]
    · simp [getCells?, h, ih, Ne.symm h]

theorem getCells_eq_none_iff (t : String) (cols : List Col) :
    getCells? cols t = none ↔ t ∉ cols.map Col.name := by
  rw [← getCells_isSome_iff t cols]
  cases getCells? cols t <;> simp

theorem names_mapCellsNamed (s : String) (f : Cell → Cell) :
    ∀ cols : List Col, (mapCellsNamed s f cols).map Col.name = cols.map Col.name := by
  intro cols
  induction cols with
  | nil => rfl
  | cons c cs ih =>
    by_cases h : c.name = s
    · simp [mapCellsNamed, h]
    · simp [mapCellsNamed, h, ih]

theorem names_setCellsNamed (s : String) (new : List Cell) :
    ∀ cols : List Col, (setCellsNamed s new cols).map Col.name = cols.map Col.name := by
  intro cols
  induction cols with
  | nil => rfl
  | cons c cs ih =>
    by_cases h : c.name = s
    · simp [setCellsNamed, h]
    · simp [setCellsNamed, h, ih]

theorem getCells_mapCellsNamed_self (s : String) (f : Cell → Cell) :
    ∀ cols : List Col,
      getCells? (mapCellsNamed s f cols) s = (getCells? cols s).map (List.map f) := by
  intro cols
  induction cols with
  | nil => rfl
  | cons c cs ih =>
    by_cases h : c.name = s
    · simp [mapCellsNamed, getCells?, h]
    · simp [mapCellsNamed, getCells?, h, ih]

theorem getCells_mapCellsNamed_ne (s t : String) (f : Cell → Cell) (hts : t ≠ s) :
    ∀ cols : List Col, getCells? (mapCellsNamed s f cols) t = getCells? cols t := by
  intro cols
  induction cols with
  | nil => rfl
  | cons c cs ih =>
    by_cases h : c.name = s
    · simp [mapCellsNamed, getCells?, h, Ne.symm hts]
    · by_cases h2 : c.name = t
      · simp [mapCellsNamed, getCells?, h, h2, hts]
      · simp [mapCellsNamed, getCells?, h, h2, ih]

theorem getCells_setCellsNamed_self (s : String) (new : List Cell)
    (cols : List Col) (h : s ∈ cols.map Col.name) :
    getCells? (setCellsNamed s new cols) s = some new := by
  induction cols with
  | nil => simp at h
  | cons c cs ih =>
    by_cases hc : c.name = s
    · simp [setCellsNamed, getCells?, hc]
    · have : s ∈ cs.map Col.name := by
        rcases List.mem_cons.mp h with h1 | h1
        · exact absurd h1.symm hc
        · exact h1
      simp [setCellsNamed, getCells?, hc, ih this]

theorem getCells_setCellsNamed_ne (s t : String) (new : List Cell) (hts : t ≠ s) :
    ∀ cols : List Col, getCells? (setCellsNamed s new cols) t = getCells? cols t := by
  intro cols
  induction cols with
  | nil => rfl
  | cons c cs ih =>
    by_cases h : c.name = s
    · simp [setCellsNamed, getCells?, h, Ne.symm hts]
    · by_cases h2 : c.name = t
      · simp [setCellsNamed, getCells?, h, h2, hts]
      · simp [setCellsNamed, getCells?, h, h2, ih]

theorem getCells_append (t : String) (l1 l2 : List Col) :
    getCells? (l1 ++ l2) t =
      match getCells? l1 t with
      | some x => some x
      | none => getCells? l2 t := by
  induction l1 with
  | nil => simp [getCells?]
  | cons c cs ih =>
    by_cases h : c.name = t
    · simp [getCells?, h]
    · simp [getCells?, h, ih]

theorem colsRect_mapCellsNamed (s : String) (f : Cell → Cell) (n : ℕ) :
    ∀ cols : List Col, colsRect cols n → colsRect (mapCellsNamed s f cols) n := by
  intro cols
  induction cols with
  | nil => intro h; exact h
  | cons c cs ih =>
    intro h
    have hc := h c (List.mem_cons_self c cs)
    have hcs : colsRect cs n := fun x hx => h x (List.mem_cons_of_mem c hx)
    intro x hx
    by_cases hn : c.name = s
    · simp only [mapCellsNamed, if_pos hn] at hx
      rcases List.mem_cons.mp hx with h1 | h1
      · subst h1; simpa using hc
      · exact hcs x h1
    · simp only [mapCellsNamed, if_neg hn] at hx
      rcases List.mem_cons.mp hx with h1 | h1
      · subst h1; exact hc
      · exact ih hcs x h1

/-- The two columns produced by the shift repair at the ClosingBalance
position. -/
def shiftTwo (c d : Col) : List Col :=
  [⟨c.name, List.zipWith (fun a b => (shiftPair a b).1) c.cells d.cells⟩,
   ⟨d.name, List.zipWith (fun a b => (shiftPair a b).2) c.cells d.cells⟩]

theorem shiftCols_cons_ne (c : Col) (cs : List Col) (h : ¬c.name = "ClosingBalance") :
    shiftCols (c :: cs) = c :: shiftCols cs := by
  cases cs with
  | nil => rfl
  | cons d rest => simp [shiftCols, h]

theorem shiftCols_cons_cb (c d : Col) (rest : List Col)
    (h : c.name = "ClosingBalance") :
    shiftCols (c :: d :: rest) = shiftTwo c d ++ rest := by
  simp [shiftCols, h, shiftTwo]

theorem shiftCols_no_cb :
    ∀ cols : List Col, "ClosingBalance" ∉ cols.map Col.name → shiftCols cols = cols := by
  intro cols
  induction cols with
  | nil => intro _; rfl
  | cons c cs ih =>
    intro h
    have hc : ¬c.name = "ClosingBalance" := by
      intro hx; exact h (by simp [hx])
    have hcs : "ClosingBalance" ∉ cs.map Col.name := by
      intro hx; exact h (by simp [hx])
    rw [shiftCols_cons_ne c cs hc, ih hcs]

theorem shiftCols_cb_last :
    ∀ pre : List Col, ∀ c : Col, "ClosingBalance" ∉ pre.map Col.name →
      shiftCols (pre ++ [c]) = pre ++ [c] := by
  intro pre
  induction pre with
  | nil => intro c _; rfl
  | cons p ps ih =>
    intro c h
    have hp : ¬p.name = "ClosingBalance" := by
      intro hx; exact h (by simp [hx])
    have hps : "ClosingBalance" ∉ ps.map Col.name := by
      intro hx; exact h (by simp [hx])
    rw [List.cons_append, shiftCols_cons_ne p (ps ++ [c]) hp, ih c hps]

theorem shiftCols_cb_mid :
    ∀ pre : List Col, ∀ c d : Col, ∀ rest : List Col,
      "ClosingBalance" ∉ pre.map Col.name → c.name = "ClosingBalance" →
      shiftCols (pre ++ c :: d :: rest) = pre ++ shiftTwo c d ++ rest := by
  intro pre
  induction pre with
  | nil =>
    intro c d rest _ hc
    simpa using shiftCols_cons_cb c d rest hc
  | cons p ps ih =>
    intro c d rest h hc
    have hp : ¬p.name = "ClosingBalance" := by
      intro hx; exact h (by simp [hx])
    have hps : "ClosingBalance" ∉ ps.map Col.name := by
      intro hx; exact h (by simp [hx])
    rw [List.cons_append, shiftCols_cons_ne p (ps ++ c :: d :: rest) hp, ih c d rest hps hc]
    simp

theorem exists_first_split (t : String) :
    ∀ cols : List Col, t ∈ cols.map Col.name →
      ∃ pre c rest, cols = pre ++ c :: rest ∧ c.name = t ∧ t ∉ pre.map Col.name := by
  intro cols
  induction cols with
  | nil => intro h; simp at h
  | cons c cs ih =>
    intro h
    by_cases hc : c.name = t
    · exact ⟨[], c, cs, by simp, hc, by simp⟩
    · have hcs : t ∈ cs.map Col.name := by
        rw [List.map_cons] at h
        rcases List.mem_cons.mp h with h1 | h1
        · exact absurd h1.symm hc
        · exact h1
      rcases ih hcs with ⟨pre, b, rest, he, hb, hpre⟩
      refine ⟨c :: pre, b, rest, by simp [he], hb, ?_⟩
      intro hx
      rw [List.map_cons] at hx
      rcases List.mem_cons.mp hx with h1 | h1
      · exact hc h1.symm
      · exact hpre h1

theorem names_shiftCols :
    ∀ cols : List Col, (shiftCols cols).map Col.name = cols.map Col.name := by
  intro cols
  induction cols with
  | nil => rfl
  | cons c cs ih =>
    cases cs with
    | nil => rfl
    | cons d rest =>
      by_cases h : c.name = "ClosingBalance"
      · rw [shiftCols_cons_cb c d rest h]; simp [shiftTwo]
      · rw [shiftCols_cons_ne c (d :: rest) h]; simpa using ih

theorem colsRect_shiftCols (n : ℕ) :
    ∀ cols : List Col, colsRect cols n → colsRect (shiftCols cols) n := by
  intro cols
  induction cols with
  | nil => intro h; exact h
  | cons c cs ih =>
    intro h
    have hc := h c (List.mem_cons_self c cs)
    have hcs : colsRect cs n := fun y hy => h y (List.mem_cons_of_mem c hy)
    cases cs with
    | nil =>
      intro x hx
      have hx2 : x ∈ [c] := hx
      rw [List.mem_singleton.mp hx2]
      exact hc
    | cons d rest =>
      have hd := h d (by simp)
      by_cases hn : c.name = "ClosingBalance"
      · rw [shiftCols_cons_cb c d rest hn]
        intro x hx
        simp only [shiftTwo, List.cons_append, List.nil_append] at hx
        rcases List.mem_cons.mp hx with h1 | h1
        · subst h1; simp [List.length_zipWith, hc, hd]
        · rcases List.mem_cons.mp h1 with h2 | h2
          · subst h2; simp [List.length_zipWith, hc, hd]
          · exact h x (by simp [h2])
      · rw [shiftCols_cons_ne c (d :: rest) hn]
        intro x hx
        rcases List.mem_cons.mp hx with h1 | h1
        · subst h1; exact hc
        · exact ih hcs x h1

theorem nRows_mk (cols : List Col) (n : ℕ) (h : colsRect cols n) (hne : cols ≠ []) :
    DF.nRows ⟨cols⟩ = n := by
  cases cols with
  | nil => exact absurd rfl hne
  | cons c cs => simpa [DF.nRows] using h c (List.mem_cons_self c cs)

theorem names_assignScalar (df : DF) (s : String) (v : Cell) :
    (df.assignScalar s v).names =
      if s ∈ df.names then df.names else df.names ++ [s] := by
  unfold DF.assignScalar
  by_cases h : s ∈ df.names
  · have h2 : (getCells? df.cols s).isSome = true := (getCells_isSome_iff s df.cols).mpr h
    rw [if_pos h2, if_pos h]
    exact names_mapCellsNamed s (fun _ => v) df.cols
  · have h2 : ¬(getCells? df.cols s).isSome = true := by
      rw [getCells_isSome_iff s df.cols]; exact h
    rw [if_neg h2, if_neg h]
    simp [DF.names]

theorem mem_names_assignScalar (df : DF) (s : String) (v : Cell) :
    s ∈ (df.assignScalar s v).names := by
  rw [names_assignScalar]
  by_cases h : s ∈ df.names
  · rw [if_pos h]; exact h
  · rw [if_neg h]; exact List.mem_append_right _ (List.mem_singleton_self s)

theorem getCells_assignScalar_ne (df : DF) (s t : String) (v : Cell) (hts : t ≠ s) :
    getCells? (df.assignScalar s v).cols t = getCells? df.cols t := by
  unfold DF.assignScalar
  by_cases h : (getCells? df.cols s).isSome = true
  · simp only [h, if_pos]
    exact getCells_mapCellsNamed_ne s t (fun _ => v) hts df.cols
  · simp only [Bool.not_eq_true] at h
    simp only [h, Bool.false_eq_true, if_false]
    rw [getCells_append]
    cases hgc : getCells? df.cols t with
    | some x => rfl
    | none => simp [getCells?, Ne.symm hts]

theorem colsRect_setCellsNamed (s : String) (new : List Cell) (n : ℕ)
    (hlen : new.length = n) :
    ∀ cols : List Col, colsRect cols n → colsRect (setCellsNamed s new cols) n := by
  intro cols
  induction cols with
  | nil => intro h; exact h
  | cons c cs ih =>
    intro h
    have hc := h c (List.mem_cons_self c cs)
    have hcs : colsRect cs n := fun y hy => h y (List.mem_cons_of_mem c hy)
    intro x hx
    by_cases hn : c.name = s
    · simp only [setCellsNamed, if_pos hn] at hx
      rcases List.mem_cons.mp hx with h1 | h1
      · subst h1; simpa using hlen
      · exact hcs x h1
    · simp only [setCellsNamed, if_neg hn] at hx
      rcases List.mem_cons.mp hx with h1 | h1
      · subst h1; exact hc
      · exact ih hcs x h1

theorem colsRect_assignScalar (df : DF) (s : String) (v : Cell) (n : ℕ)
    (h : colsRect df.cols n) (hn : df.nRows = n) :
    colsRect (df.assignScalar s v).cols n := by
  unfold DF.assignScalar
  by_cases hs : (getCells? df.cols s).isSome = true
  · simp only [hs, if_pos]
    exact colsRect_mapCellsNamed s (fun _ => v) n df.cols h
  · simp only [Bool.not_eq_true] at hs
    simp only [hs, Bool.false_eq_true, if_false]
    intro x hx
    rcases List.mem_append.mp hx with h1 | h1
    · exact h x h1
    · rw [List.mem_singleton.mp h1]
      simp [hn]

/-- Coerced ClosingBalance column of the repaired table. -/
def cbC (df : DF) : List Cell :=
  ((getCells? (shiftRepair df).cols "ClosingBalance").getD []).map coerceNa

/-- Coerced WithdrawalAmount column of the repaired table. -/
def wC (df : DF) : List Cell :=
  ((getCells? (shiftRepair df).cols "WithdrawalAmount").getD []).map coerceFill0

/-- Coerced DepositAmount column of the repaired table. -/
def dC (df : DF) : List Cell :=
  ((getCells? (shiftRepair df).cols "DepositAmount").getD []).map coerceFill0

/-- The fully coerced column list of the success path. -/
def coercedCols (df : DF) : List Col :=
  mapCellsNamed "ClosingBalance" coerceNa
    (mapCellsNamed "DepositAmount" coerceFill0
      (mapCellsNamed "WithdrawalAmount" coerceFill0 (shiftCols df.cols)))

theorem good_cols_ne_nil (df : DF) (hg : Good df) : df.cols ≠ [] := by
  intro h
  have hW := hg.2.2.1
  rw [DF.names, h] at hW
  simp at hW

theorem good_isEmpty_false (df : DF) (hg : Good df) : df.isEmpty = false := by
  have hne := good_cols_ne_nil df hg
  have hn := hg.2.2.2.2.2
  cases hcols : df.cols with
  | nil => exact absurd hcols hne
  | cons c cs =>
    have hc : c.cells.length = df.nRows :=
      hg.1 c (by rw [hcols]; exact List.mem_cons_self c cs)
    have hlen : 0 < c.cells.length := by rw [hc]; exact hn
    unfold DF.isEmpty
    rw [hcols]
    show c.cells.isEmpty = false
    cases hcells : c.cells with
    | nil => rw [hcells] at hlen; simp at hlen
    | cons a as => rfl

theorem validate_eq_body (df : DF) (hg : Good df) :
    validate_and_correct_balances df =
      writeVerdicts ((DF.mk (coercedCols df)).assignScalar "Validation Status"
        (Cell.text "OK")) := by
  obtain ⟨hrect, hnd, hW, hD, hCB, hn⟩ := hg
  have hie := good_isEmpty_false df ⟨hrect, hnd, hW, hD, hCB, hn⟩
  have hWs : (getCells? (shiftCols df.cols) "WithdrawalAmount").isSome = true := by
    rw [getCells_isSome_iff, names_shiftCols]; exact hW
  obtain ⟨cw, hcw⟩ := Option.isSome_iff_exists.mp hWs
  have hDs : (getCells? (mapCellsNamed "WithdrawalAmount" coerceFill0 (shiftCols df.cols))
      "DepositAmount").isSome = true := by
    rw [getCells_isSome_iff, names_mapCellsNamed, names_shiftCols]; exact hD
  obtain ⟨cd, hcd⟩ := Option.isSome_iff_exists.mp hDs
  have hCs : (getCells? (mapCellsNamed "DepositAmount" coerceFill0
      (mapCellsNamed "WithdrawalAmount" coerceFill0 (shiftCols df.cols)))
      "ClosingBalance").isSome = true := by
    rw [getCells_isSome_iff, names_mapCellsNamed, names_mapCellsNamed, names_shiftCols]
    exact hCB
  obtain ⟨cc, hcc⟩ := Option.isSome_iff_exists.mp hCs
  unfold validate_and_correct_balances
  rw [if_neg (by simp [hie])]
  unfold validateBody
  simp only [shiftRepair, coerceColE, hcw, hcd, hcc, Except.bind, bind, pure,
    Except.pure, coercedCols]

theorem names_coercedCols (df : DF) :
    (coercedCols df).map Col.name = df.cols.map Col.name := by
  unfold coercedCols
  rw [names_mapCellsNamed, names_mapCellsNamed, names_mapCellsNamed, names_shiftCols]

theorem colsRect_coercedCols (df : DF) (n : ℕ) (h : colsRect df.cols n) :
    colsRect (coercedCols df) n :=
  colsRect_mapCellsNamed _ _ _ _
    (colsRect_mapCellsNamed _ _ _ _
      (colsRect_mapCellsNamed _ _ _ _ (colsRect_shiftCols n _ h)))

theorem getCells_coerced_cb (df : DF) (hCB : "ClosingBalance" ∈ df.names) :
    getCells? (coercedCols df) "ClosingBalance" = some (cbC df) := by
  obtain ⟨x, hx⟩ := Option.isSome_iff_exists.mp
    (by rw [getCells_isSome_iff, names_shiftCols]; exact hCB :
      (getCells? (shiftCols df.cols) "ClosingBalance").isSome = true)
  unfold coercedCols
  rw [getCells_mapCellsNamed_self,
    getCells_mapCellsNamed_ne _ _ _ (by decide),
    getCells_mapCellsNamed_ne _ _ _ (by decide), hx]
  simp [cbC, shiftRepair, hx]

theorem getCells_coerced_w (df : DF) (hW : "WithdrawalAmount" ∈ df.names) :
    getCells? (coercedCols df) "WithdrawalAmount" = some (wC df) := by
  obtain ⟨x, hx⟩ := Option.isSome_iff_exists.mp
    (by rw [getCells_isSome_iff, names_shiftCols]; exact hW :
      (getCells? (shiftCols df.cols) "WithdrawalAmount").isSome = true)
  unfold coercedCols
  rw [getCells_mapCellsNamed_ne _ _ _ (by decide),
    getCells_mapCellsNamed_ne _ _ _ (by decide),
    getCells_mapCellsNamed_self, hx]
  simp [wC, shiftRepair, hx]

theorem getCells_coerced_d (df : DF) (hD : "DepositAmount" ∈ df.names) :
    getCells? (coercedCols df) "DepositAmount" = some (dC df) := by
  obtain ⟨x, hx⟩ := Option.isSome_iff_exists.mp
    (by rw [getCells_isSome_iff, names_shiftCols]; exact hD :
      (getCells? (shiftCols df.cols) "DepositAmount").isSome = true)
  unfold coercedCols
  rw [getCells_mapCellsNamed_ne _ _ _ (by decide),
    getCells_mapCellsNamed_self,
    getCells_mapCellsNamed_ne _ _ _ (by decide), hx]
  simp [dC, shiftRepair, hx]

theorem getCells_coerced_other (df : DF) (t : String)
    (h2 : t ≠ "ClosingBalance") (h3 : t ≠ "WithdrawalAmount")
    (h4 : t ≠ "DepositAmount") :
    getCells? (coercedCols df) t = getCells? (shiftCols df.cols) t := by
  unfold coercedCols
  rw [getCells_mapCellsNamed_ne _ _ _ h2, getCells_mapCellsNamed_ne _ _ _ h4,
    getCells_mapCellsNamed_ne _ _ _ h3]

theorem coercedDF_names (df : DF) : (DF.mk (coercedCols df)).names = df.names :=
  names_coercedCols df

theorem coercedCols_ne_nil (df : DF) (hg : Good df) : coercedCols df ≠ [] := by
  intro h
  have := names_coercedCols df
  rw [h] at this
  have hW := hg.2.2.1
  rw [DF.names, ← this] at hW
  simp at hW

theorem coercedDF_nRows (df : DF) (hg : Good df) :
    (DF.mk (coercedCols df)).nRows = df.nRows :=
  nRows_mk _ _ (colsRect_coercedCols df df.nRows hg.1) (coercedCols_ne_nil df hg)

/-- The annotated frame of the success path before status writing. -/
def preStatusDF (df : DF) : DF :=
  (DF.mk (coercedCols df)).assignScalar "Validation Status" (Cell.text "OK")

theorem preStatus_cb (df : DF) (hg : Good df) :
    getCells? (preStatusDF df).cols "ClosingBalance" = some (cbC df) := by
  unfold preStatusDF
  rw [getCells_assignScalar_ne _ _ _ _ (by decide)]
  exact getCells_coerced_cb df hg.2.2.2.2.1

theorem preStatus_w (df : DF) (hg : Good df) :
    getCells? (preStatusDF df).cols "WithdrawalAmount" = some (wC df) := by
  unfold preStatusDF
  rw [getCells_assignScalar_ne _ _ _ _ (by decide)]
  exact getCells_coerced_w df hg.2.2.1

theorem preStatus_d (df : DF) (hg : Good df) :
    getCells? (preStatusDF df).cols "DepositAmount" = some (dC df) := by
  unfold preStatusDF
  rw [getCells_assignScalar_ne _ _ _ _ (by decide)]
  exact getCells_coerced_d df hg.2.2.2.1

theorem preStatus_colsRect (df : DF) (hg : Good df) :
    colsRect (preStatusDF df).cols df.nRows :=
  colsRect_assignScalar _ _ _ _ (colsRect_coercedCols df df.nRows hg.1)
    (coercedDF_nRows df hg)

theorem preStatus_cols_ne_nil (df : DF) (hg : Good df) : (preStatusDF df).cols ≠ [] := by
  intro h
  have := mem_names_assignScalar (DF.mk (coercedCols df)) "Validation Status"
    (Cell.text "OK")
  rw [preStatusDF] at h
  rw [DF.names, h] at this
  simp at this

theorem preStatus_nRows (df : DF) (hg : Good df) :
    (preStatusDF df).nRows = df.nRows :=
  nRows_mk _ _ (preStatus_colsRect df hg) (preStatus_cols_ne_nil df hg)

/-- The status column the validator writes, row by row. -/
def statusList (df : DF) : List Cell :=
  (List.range df.nRows).map (fun i => statusCell (rowStatus (cbC df) (wC df) (dC df) i))

theorem validate_eq_success (df : DF) (hg : Good df) :
    validate_and_correct_balances df =
      DF.mk (setCellsNamed "Validation Status" (statusList df) (preStatusDF df).cols) := by
  rw [validate_eq_body df hg]
  show writeVerdicts (preStatusDF df) = _
  unfold writeVerdicts
  rw [preStatus_cb df hg, preStatus_w df hg, preStatus_d df hg, preStatus_nRows df hg]
  rfl

theorem validate_VS (df : DF) (hg : Good df) :
    (validate_and_correct_balances df).getCol? "Validation Status" =
      some (statusList df) := by
  rw [validate_eq_success df hg]
  show getCells? _ "Validation Status" = _
  apply getCells_setCellsNamed_self
  have := mem_names_assignScalar (DF.mk (coercedCols df)) "Validation Status"
    (Cell.text "OK")
  exact this

theorem validate_other (df : DF) (hg : Good df) (t : String)
    (h1 : t ≠ "Validation Status") (h2 : t ≠ "ClosingBalance")
    (h3 : t ≠ "WithdrawalAmount") (h4 : t ≠ "DepositAmount") :
    (validate_and_correct_balances df).getCol? t = getCells? (shiftCols df.cols) t := by
  rw [validate_eq_success df hg]
  show getCells? _ t = _
  rw [getCells_setCellsNamed_ne _ _ _ h1]
  unfold preStatusDF
  rw [getCells_assignScalar_ne _ _ _ _ h1]
  exact getCells_coerced_other df t h2 h3 h4

theorem validate_cb (df : DF) (hg : Good df) :
    (validate_and_correct_balances df).getCol? "ClosingBalance" = some (cbC df) := by
  rw [validate_eq_success df hg]
  show getCells? _ "ClosingBalance" = _
  rw [getCells_setCellsNamed_ne _ _ _ (by decide)]
  exact preStatus_cb df hg

theorem validate_w (df : DF) (hg : Good df) :
    (validate_and_correct_balances df).getCol? "WithdrawalAmount" = some (wC df) := by
  rw [validate_eq_success df hg]
  show getCells? _ "WithdrawalAmount" = _
  rw [getCells_setCellsNamed_ne _ _ _ (by decide)]
  exact preStatus_w df hg

theorem validate_d (df : DF) (hg : Good df) :
    (validate_and_correct_balances df).getCol? "DepositAmount" = some (dC df) := by
  rw [validate_eq_success df hg]
  show getCells? _ "DepositAmount" = _
  rw [getCells_setCellsNamed_ne _ _ _ (by decide)]
  exact preStatus_d df hg

theorem validate_names (df : DF) (hg : Good df) :
    (validate_and_correct_balances df).names =
      if "Validation Status" ∈ df.names then df.names
      else df.names ++ ["Validation Status"] := by
  rw [validate_eq_success df hg]
  show (setCellsNamed _ _ _).map Col.name = _
  rw [names_setCellsNamed]
  show (preStatusDF df).names = _
  unfold preStatusDF
  rw [names_assignScalar, coercedDF_names]

theorem statusList_length (df : DF) : (statusList df).length = df.nRows := by
  simp [statusList]

theorem validate_colsRect (df : DF) (hg : Good df) :
    colsRect (validate_and_correct_balances df).cols df.nRows := by
  rw [validate_eq_success df hg]
  exact colsRect_setCellsNamed _ _ _ (statusList_length df) _ (preStatus_colsRect df hg)

theorem validate_cols_ne_nil (df : DF) (hg : Good df) :
    (validate_and_correct_balances df).cols ≠ [] := by
  intro h
  have hv := validate_names df hg
  rw [DF.names, h] at hv
  by_cases hm : "Validation Status" ∈ df.names
  · rw [if_pos hm] at hv
    rw [← hv] at hm
    simp at hm
  · rw [if_neg hm] at hv
    have : df.names ++ ["Validation Status"] ≠ [] := by simp
    exact this hv.symm

theorem validate_nRows (df : DF) (hg : Good df) :
    (validate_and_correct_balances df).nRows = df.nRows :=
  nRows_mk (validate_and_correct_balances df).cols df.nRows
    (validate_colsRect df hg) (validate_cols_ne_nil df hg)

theorem getD_map_of_default {α β : Type} (f : α → β) (d : α) :
    ∀ (l : List α) (i : ℕ), (l.map f).getD i (f d) = f (l.getD i d) := by
  intro l
  induction l with
  | nil => intro i; rfl
  | cons a as ih =>
    intro i
    cases i with
    | zero => rfl
    | succ j => exact ih j

theorem toNum_coerceNa (c : Cell) : (coerceNa c).toNum? = c.toNum? := by
  cases c <;> rfl

theorem fill0_toNum_getD :
    ∀ (l : List Cell) (i : ℕ),
      (((l.map coerceFill0).getD i Cell.missing).toNum?).getD 0 =
        ((l.getD i Cell.missing).toNum?).getD 0 := by
  intro l
  induction l with
  | nil => intro i; rfl
  | cons a as ih =>
    intro i
    cases i with
    | zero => cases a <;> rfl
    | succ j => exact ih j

theorem cbC_getD (df : DF) (j : ℕ) :
    (cbC df).getD j Cell.missing = coerceNa (shiftedCell df "ClosingBalance" j) := by
  unfold cbC shiftedCell
  exact getD_map_of_default coerceNa Cell.missing
    ((getCells? (shiftRepair df).cols "ClosingBalance").getD []) j

theorem wC_val (df : DF) (j : ℕ) :
    (((wC df).getD j Cell.missing).toNum?).getD 0 = wQ df j := by
  unfold wC wQ shiftedCell
  exact fill0_toNum_getD
    ((getCells? (shiftRepair df).cols "WithdrawalAmount").getD []) j

theorem dC_val (df : DF) (j : ℕ) :
    (((dC df).getD j Cell.missing).toNum?).getD 0 = dQ df j := by
  unfold dC dQ shiftedCell
  exact fill0_toNum_getD
    ((getCells? (shiftRepair df).cols "DepositAmount").getD []) j

theorem rowStatus_eq_ref (df : DF) (i : ℕ) :
    rowStatus (cbC df) (wC df) (dC df) i = refVerdictAt df i := by
  cases i with
  | zero =>
    simp only [rowStatus, refVerdictAt, cbC_getD df 0]
    unfold refVerdict0 cbQ
    cases hp : shiftedCell df "ClosingBalance" 0 <;> rfl
  | succ j =>
    simp only [rowStatus, refVerdictAt, cbC_getD df j, cbC_getD df (j + 1),
      wC_val df (j + 1), dC_val df (j + 1)]
    unfold refVerdictStep cbQ
    cases hp : shiftedCell df "ClosingBalance" j <;>
      cases hq : shiftedCell df "ClosingBalance" (j + 1) <;> rfl

theorem statusList_eq_ref (df : DF) :
    statusList df = (List.range df.nRows).map (fun i => statusCell (refVerdictAt df i)) := by
  unfold statusList
  simp only [rowStatus_eq_ref]

instance instDecidableColsRect (cols : List Col) (n : ℕ) : Decidable (colsRect cols n) := by
  unfold colsRect
  infer_instance

instance instDecidableGood (df : DF) : Decidable (Good df) := by
  unfold Good colsRect
  infer_instance

/-- C1: on every well-formed transaction table taken down the success
path, the reconciliation pass annotates row i with exactly the claim's
reference verdict computed from the coerced post-repair values: row 0 is
CRITICAL (opening balance invalid) precisely when its own coerced closing
balance is missing (no other row is consulted), and each row i>0 is
MISSING_PREVIOUS when the coerced previous balance is missing, else
MISSING_CURRENT when its own coerced balance is missing, else
MISMATCH(round2 discrepancy) when the discrepancy of
expected = previous - withdrawal + deposit against the reported balance
exceeds 0.01 in absolute value, and OK otherwise. -/
theorem c1_row_verdicts (df : DF) (hg : Good df) :
    (validate_and_correct_balances df).getCol? "Validation Status" =
      some ((List.range df.nRows).map (fun i => statusCell (refVerdictAt df i))) := by
  rw [validate_VS df hg, statusList_eq_ref]

/-- Witness for C1 at a concrete one-row statement table. -/
theorem c1_row_verdicts_witness :
    Good (DF.mk [⟨"WithdrawalAmount", [Cell.num 0]⟩, ⟨"DepositAmount", [Cell.num 0]⟩,
        ⟨"ClosingBalance", [Cell.missing]⟩]) ∧
    (validate_and_correct_balances
        (DF.mk [⟨"WithdrawalAmount", [Cell.num 0]⟩, ⟨"DepositAmount", [Cell.num 0]⟩,
          ⟨"ClosingBalance", [Cell.missing]⟩])).getCol? "Validation Status" =
      some ((List.range (DF.mk [⟨"WithdrawalAmount", [Cell.num 0]⟩,
          ⟨"DepositAmount", [Cell.num 0]⟩,
          ⟨"ClosingBalance", [Cell.missing]⟩]).nRows).map
        (fun i => statusCell (refVerdictAt
          (DF.mk [⟨"WithdrawalAmount", [Cell.num 0]⟩, ⟨"DepositAmount", [Cell.num 0]⟩,
            ⟨"ClosingBalance", [Cell.missing]⟩]) i))) :=
  ⟨by decide, c1_row_verdicts _ (by decide)⟩

theorem getD_zipWith {α β γ : Type} (f : α → β → γ) (da : α) (db : β) (dc : γ) :
    ∀ (a : List α) (b : List β) (i : ℕ), i < a.length → i < b.length →
      (List.zipWith f a b).getD i dc = f (a.getD i da) (b.getD i db) := by
  intro a
  induction a with
  | nil => intro b i h1 h2; simp at h1
  | cons x xs ih =>
    intro b i h1 h2
    cases b with
    | nil => simp at h2
    | cons y ys =>
      cases i with
      | zero => rfl
      | succ j =>
        simp only [List.zipWith_cons_cons, List.getD_cons_succ]
        exact ih ys j (by simpa using h1) (by simpa using h2)

/-- C2: the column-shift repair pre-pass, decomposed at the first
ClosingBalance column and the column immediately following it: it moves
the following column value into ClosingBalance and nulls the source
exactly on rows whose ClosingBalance cell is missing while the next cell
is present; a row whose ClosingBalance is already present is left
untouched even when the next cell holds a value; a row with both cells
missing is left untouched; the repair is a single pointwise pass whose
output feeds the coerced balance column consumed by the
balance-consistency pass. -/
theorem c2_shift_repair (df : DF) (pre : List Col) (cb nx : Col) (rest : List Col)
    (hdec : df.cols = pre ++ cb :: nx :: rest)
    (hcb : cb.name = "ClosingBalance")
    (hpre : "ClosingBalance" ∉ pre.map Col.name)
    (hrect : colsRect df.cols df.nRows) :
    ∃ cbNew nxNew : List Cell,
      (shiftRepair df).cols = pre ++ (⟨cb.name, cbNew⟩ : Col) :: (⟨nx.name, nxNew⟩ : Col) :: rest ∧
      cbC df = cbNew.map coerceNa ∧
      ∀ i < df.nRows,
        ((cb.cells.getD i Cell.missing).isna = false →
          cbNew.getD i Cell.missing = cb.cells.getD i Cell.missing ∧
          nxNew.getD i Cell.missing = nx.cells.getD i Cell.missing) ∧
        ((cb.cells.getD i Cell.missing).isna = true ∧
            (nx.cells.getD i Cell.missing).isna = false →
          cbNew.getD i Cell.missing = nx.cells.getD i Cell.missing ∧
          nxNew.getD i Cell.missing = Cell.missing) ∧
        ((cb.cells.getD i Cell.missing).isna = true ∧
            (nx.cells.getD i Cell.missing).isna = true →
          cbNew.getD i Cell.missing = cb.cells.getD i Cell.missing ∧
          nxNew.getD i Cell.missing = nx.cells.getD i Cell.missing) := by
  have hshift : (shiftRepair df).cols =
      pre ++ shiftTwo cb nx ++ rest := by
    unfold shiftRepair
    rw [hdec]
    exact shiftCols_cb_mid pre cb nx rest hpre hcb
  have hcbmem : cb ∈ df.cols := by
    rw [hdec]; exact List.mem_append_right _ (List.mem_cons_self _ _)
  have hnxmem : nx ∈ df.cols := by
    rw [hdec]
    exact List.mem_append_right _ (List.mem_cons_of_mem _ (List.mem_cons_self _ _))
  have hlcb : cb.cells.length = df.nRows := hrect cb hcbmem
  have hlnx : nx.cells.length = df.nRows := hrect nx hnxmem
  refine ⟨List.zipWith (fun a b => (shiftPair a b).1) cb.cells nx.cells,
    List.zipWith (fun a b => (shiftPair a b).2) cb.cells nx.cells, ?_, ?_, ?_⟩
  · rw [hshift]; simp [shiftTwo]
  · unfold cbC shiftRepair
    rw [hdec, shiftCols_cb_mid pre cb nx rest hpre hcb, List.append_assoc,
      getCells_append, (getCells_eq_none_iff _ _).mpr hpre]
    show ((getCells? (shiftTwo cb nx ++ rest) "ClosingBalance").getD []).map coerceNa = _
    simp [shiftTwo, getCells?, hcb]
  · intro i hi
    have h1 : i < cb.cells.length := by rw [hlcb]; exact hi
    have h2 : i < nx.cells.length := by rw [hlnx]; exact hi
    rw [getD_zipWith (fun a b => (shiftPair a b).1) Cell.missing Cell.missing Cell.missing
        cb.cells nx.cells i h1 h2,
      getD_zipWith (fun a b => (shiftPair a b).2) Cell.missing Cell.missing Cell.missing
        cb.cells nx.cells i h1 h2]
    obtain ⟨a, ha⟩ : ∃ a, cb.cells.getD i Cell.missing = a := ⟨_, rfl⟩
    obtain ⟨b, hb⟩ : ∃ b, nx.cells.getD i Cell.missing = b := ⟨_, rfl⟩
    rw [ha, hb]
    refine ⟨?_, ?_, ?_⟩
    · intro h
      cases a with
      | missing => simp [Cell.isna] at h
      | num q => simp [shiftPair, Cell.isna]
      | text s => simp [shiftPair, Cell.isna]
    · rintro ⟨hx, hy⟩
      cases a with
      | num q => simp [Cell.isna] at hx
      | text s => simp [Cell.isna] at hx
      | missing =>
        cases b with
        | missing => simp [Cell.isna] at hy
        | num q => simp [shiftPair, Cell.isna]
        | text s => simp [shiftPair, Cell.isna]
    · rintro ⟨hx, hy⟩
      cases a with
      | num q => simp [Cell.isna] at hx
      | text s => simp [Cell.isna] at hx
      | missing =>
        cases b with
        | num q => simp [Cell.isna] at hy
        | text s => simp [Cell.isna] at hy
        | missing => simp [shiftPair, Cell.isna]

/-- Concrete two-column table exercising the shift repair. -/
def c2cb : Col := ⟨"ClosingBalance", [Cell.missing, Cell.num 5, Cell.missing]⟩

def c2nx : Col := ⟨"Unnamed_1", [Cell.num 7, Cell.num 9, Cell.missing]⟩

def c2df : DF := ⟨[c2cb, c2nx]⟩

/-- Witness for C2 at a concrete table with a shifted row, an intact row
and an all-missing row. -/
theorem c2_shift_repair_witness :
    c2df.cols = [] ++ c2cb :: c2nx :: [] ∧ c2cb.name = "ClosingBalance" ∧
    "ClosingBalance" ∉ ([] : List Col).map Col.name ∧
    colsRect c2df.cols c2df.nRows ∧
    (∃ cbNew nxNew : List Cell,
      (shiftRepair c2df).cols =
        [] ++ (⟨c2cb.name, cbNew⟩ : Col) :: (⟨c2nx.name, nxNew⟩ : Col) :: [] ∧
      cbC c2df = cbNew.map coerceNa ∧
      ∀ i < c2df.nRows,
        ((c2cb.cells.getD i Cell.missing).isna = false →
          cbNew.getD i Cell.missing = c2cb.cells.getD i Cell.missing ∧
          nxNew.getD i Cell.missing = c2nx.cells.getD i Cell.missing) ∧
        ((c2cb.cells.getD i Cell.missing).isna = true ∧
            (c2nx.cells.getD i Cell.missing).isna = false →
          cbNew.getD i Cell.missing = c2nx.cells.getD i Cell.missing ∧
          nxNew.getD i Cell.missing = Cell.missing) ∧
        ((c2cb.cells.getD i Cell.missing).isna = true ∧
            (c2nx.cells.getD i Cell.missing).isna = true →
          cbNew.getD i Cell.missing = c2cb.cells.getD i Cell.missing ∧
          nxNew.getD i Cell.missing = c2nx.cells.getD i Cell.missing)) :=
  ⟨rfl, rfl, by simp, by decide,
    c2_shift_repair c2df [] c2cb c2nx [] rfl rfl (by simp) (by decide)⟩

theorem twoDec_round2 (q : ℚ) (h : TwoDec q) : round2 q = q := by
  obtain ⟨m, hm⟩ := h
  rw [round2, qround_eq_round, hm, round_intCast]
  exact ((eq_div_iff (by norm_num)).mpr hm).symm

theorem round2_twoDec (q : ℚ) : TwoDec (round2 q) := by
  refine ⟨qround (q * 100), ?_⟩
  rw [round2]
  field_simp

theorem TwoDec.sub {a b : ℚ} (ha : TwoDec a) (hb : TwoDec b) : TwoDec (a - b) := by
  obtain ⟨m1, h1⟩ := ha
  obtain ⟨m2, h2⟩ := hb
  exact ⟨m1 - m2, by rw [sub_mul, h1, h2]; push_cast; ring⟩

theorem TwoDec.zero : TwoDec 0 := ⟨0, by norm_num⟩

theorem TwoDec.min {a b : ℚ} (ha : TwoDec a) (hb : TwoDec b) : TwoDec (min a b) := by
  rcases min_choice a b with h | h <;> rw [h]
  · exact ha
  · exact hb

theorem TwoDec.max {a b : ℚ} (ha : TwoDec a) (hb : TwoDec b) : TwoDec (max a b) := by
  rcases max_choice a b with h | h <;> rw [h]
  · exact ha
  · exact hb

/-- C4: the reconciliation pass is total and never lets an error escape:
a table that pandas reports empty is returned with the single
document-level annotation, and a table missing one of the required
columns WithdrawalAmount, DepositAmount or ClosingBalance is returned as
the original table annotated with the critical KeyError detail of the
first coercion that failed, instead of propagating the exception. -/
theorem c4_error_boundary (df : DF) :
    (df.isEmpty = true →
      validate_and_correct_balances df =
        df.assignScalar "Validation Status" (Cell.text "DataFrame is empty")) ∧
    (df.isEmpty = false → "WithdrawalAmount" ∉ df.names →
      validate_and_correct_balances df =
        df.assignScalar "Validation Status" (Cell.text (keyErr "WithdrawalAmount"))) ∧
    (df.isEmpty = false → "WithdrawalAmount" ∈ df.names → "DepositAmount" ∉ df.names →
      validate_and_correct_balances df =
        df.assignScalar "Validation Status" (Cell.text (keyErr "DepositAmount"))) ∧
    (df.isEmpty = false → "WithdrawalAmount" ∈ df.names → "DepositAmount" ∈ df.names →
      "ClosingBalance" ∉ df.names →
      validate_and_correct_balances df =
        df.assignScalar "Validation Status" (Cell.text (keyErr "ClosingBalance"))) := by
  refine ⟨?_, ?_, ?_, ?_⟩
  · intro he
    unfold validate_and_correct_balances
    rw [if_pos (by simp [he])]
  · intro he hW
    have hwnone : getCells? (shiftCols df.cols) "WithdrawalAmount" = none := by
      rw [getCells_eq_none_iff, names_shiftCols]; exact hW
    unfold validate_and_correct_balances
    rw [if_neg (by simp [he])]
    unfold validateBody
    simp only [shiftRepair, coerceColE, hwnone, Except.bind, bind]
  · intro he hW hD
    obtain ⟨cw, hcw⟩ := Option.isSome_iff_exists.mp
      (by rw [getCells_isSome_iff, names_shiftCols]; exact hW :
        (getCells? (shiftCols df.cols) "WithdrawalAmount").isSome = true)
    have hdnone : getCells? (mapCellsNamed "WithdrawalAmount" coerceFill0
        (shiftCols df.cols)) "DepositAmount" = none := by
      rw [getCells_eq_none_iff, names_mapCellsNamed, names_shiftCols]; exact hD
    unfold validate_and_correct_balances
    rw [if_neg (by simp [he])]
    unfold validateBody
    simp only [shiftRepair, coerceColE, hcw, hdnone, Except.bind, bind]
  · intro he hW hD hCB
    obtain ⟨cw, hcw⟩ := Option.isSome_iff_exists.mp
      (by rw [getCells_isSome_iff, names_shiftCols]; exact hW :
        (getCells? (shiftCols df.cols) "WithdrawalAmount").isSome = true)
    obtain ⟨cd, hcd⟩ := Option.isSome_iff_exists.mp
      (by rw [getCells_isSome_iff, names_mapCellsNamed, names_shiftCols]; exact hD :
        (getCells? (mapCellsNamed "WithdrawalAmount" coerceFill0 (shiftCols df.cols))
          "DepositAmount").isSome = true)
    have hcbnone : getCells? (mapCellsNamed "DepositAmount" coerceFill0
        (mapCellsNamed "WithdrawalAmount" coerceFill0 (shiftCols df.cols)))
        "ClosingBalance" = none := by
      rw [getCells_eq_none_iff, names_mapCellsNamed, names_mapCellsNamed,
        names_shiftCols]
      exact hCB
    unfold validate_and_correct_balances
    rw [if_neg (by simp [he])]
    unfold validateBody
    simp only [shiftRepair, coerceColE, hcw, hcd, hcbnone, Except.bind, bind]

/-- Witness for C4: the zero-row table gets the document-level
annotation, and a one-column table without WithdrawalAmount gets the
critical KeyError annotation. -/
theorem c4_error_boundary_witness :
    (DF.mk []).isEmpty = true ∧
    validate_and_correct_balances (DF.mk []) =
      (DF.mk []).assignScalar "Validation Status" (Cell.text "DataFrame is empty") ∧
    (DF.mk [⟨"Narration", [Cell.text "opening"]⟩]).isEmpty = false ∧
    "WithdrawalAmount" ∉ (DF.mk [⟨"Narration", [Cell.text "opening"]⟩]).names ∧
    validate_and_correct_balances (DF.mk [⟨"Narration", [Cell.text "opening"]⟩]) =
      (DF.mk [⟨"Narration", [Cell.text "opening"]⟩]).assignScalar "Validation Status"
        (Cell.text (keyErr "WithdrawalAmount")) :=
  ⟨by decide, (c4_error_boundary (DF.mk [])).1 (by decide), by decide, by decide,
    (c4_error_boundary (DF.mk [⟨"Narration", [Cell.text "opening"]⟩])).2.1
      (by decide) (by decide)⟩

/-- C9: the guard of the transcription fallback, read with Python
semantics, is the truthiness of the non-empty literal string and
therefore holds for every exception text, unlike the intended
rate-limit/not-found test which rejects an unrelated message. -/
theorem c9_fallback_always_fires :
    (∀ e : String, fallback_retry_condition e = true) ∧
    intended_retry_condition "connection reset by peer" = false ∧
    fallback_retry_condition "connection reset by peer" = true :=
  ⟨fun _ => rfl, by decide, rfl⟩

/-- The grandfathering scenario row of the specification: equity fund,
bought 2017-06-01, sold 2019-01-01, actual cost 100, FMV on 31-01-2018
of 150, net sale consideration 200. -/
def c6_row : CgRow :=
  ⟨TransactionType.equity_mf, days_from_civil 2017 6 1, days_from_civil 2019 1 1,
    200, 200, 100, 0, 150⟩

theorem c6_row_long_term : is_long_term c6_row = true := by decide

theorem c6_row_before_cutoff : purchase_before_cutoff c6_row = true := by decide

theorem c6_row_deductible : cost_of_acquisition_deductible c6_row = 150 := by
  have hraw : calculate_deductible_cost c6_row = 150 := by
    unfold calculate_deductible_cost
    rw [c6_row_long_term, c6_row_before_cutoff]
    show max (100 : ℚ) (min 150 200) = 150
    rw [min_eq_left (by norm_num), max_eq_right (by norm_num)]
  unfold cost_of_acquisition_deductible
  rw [hraw]
  exact twoDec_round2 150 ⟨15000, by norm_num⟩

theorem c6_row_ltcg : ltcg_112A c6_row = 50 := by
  unfold ltcg_112A equity_gain_loss
  rw [c6_row_long_term, if_pos rfl, c6_row_deductible]
  show round2 ((200 : ℚ) - 150) = 50
  have : (200 : ℚ) - 150 = 50 := by norm_num
  rw [this]
  exact twoDec_round2 50 ⟨5000, by norm_num⟩

/-- C6: the equity sheet rules, for rows whose money amounts are whole
cents: long-term is exactly holding over 365 days; the deductible cost
is max(actual, min(fmv, net sale)) exactly when long-term and purchased
before 2018-02-01, and the actual cost otherwise; the short-term gain is
net sale minus actual cost when not long-term and 0 when long-term; the
long-term gain is net sale minus deductible cost when long-term and 0
otherwise; and on the grandfathering scenario row the deductible cost is
150 and the long-term gain 50. -/
theorem c6_equity_rules (r : CgRow)
    (ha : TwoDec r.actual_cost_of_acquisition)
    (hf : TwoDec r.fmv_on_31012018)
    (hn : TwoDec r.net_sale_consideration) :
    (is_long_term r = true ↔ 365 < calculated_holding_days r) ∧
    cost_of_acquisition_deductible r =
      (if 365 < calculated_holding_days r ∧
          r.date_of_purchase < days_from_civil 2018 2 1 then
        max r.actual_cost_of_acquisition
          (min r.fmv_on_31012018 r.net_sale_consideration)
      else r.actual_cost_of_acquisition) ∧
    short_term_gain_111A r =
      (if 365 < calculated_holding_days r then 0
       else r.net_sale_consideration - r.actual_cost_of_acquisition) ∧
    ltcg_112A r =
      (if 365 < calculated_holding_days r then
        r.net_sale_consideration - cost_of_acquisition_deductible r
      else 0) ∧
    cost_of_acquisition_deductible c6_row = 150 ∧ ltcg_112A c6_row = 50 := by
  have hlt : is_long_term r = true ↔ 365 < calculated_holding_days r := by
    unfold is_long_term
    exact decide_eq_true_iff
  have hbc : purchase_before_cutoff r = true ↔
      r.date_of_purchase < days_from_civil 2018 2 1 := by
    unfold purchase_before_cutoff cutoff_2018_02_01
    exact decide_eq_true_iff
  have hded : cost_of_acquisition_deductible r =
      (if 365 < calculated_holding_days r ∧
          r.date_of_purchase < days_from_civil 2018 2 1 then
        max r.actual_cost_of_acquisition
          (min r.fmv_on_31012018 r.net_sale_consideration)
      else r.actual_cost_of_acquisition) := by
    unfold cost_of_acquisition_deductible calculate_deductible_cost
    by_cases hl : 365 < calculated_holding_days r
    · by_cases hc : r.date_of_purchase < days_from_civil 2018 2 1
      · rw [hlt.mpr hl, hbc.mpr hc]
        simp only [Bool.not_true, Bool.or_self, Bool.false_eq_true, if_false,
          if_pos (And.intro hl hc)]
        exact twoDec_round2 _ (ha.max (hf.min hn))
      · have : purchase_before_cutoff r = false := by
          rw [← Bool.not_eq_true, hbc]; exact hc
        rw [hlt.mpr hl, this]
        simp only [Bool.not_true, Bool.not_false, Bool.or_true, if_true]
        rw [if_neg (by intro h; exact hc h.2)]
        exact twoDec_round2 _ ha
    · have : is_long_term r = false := by
        rw [← Bool.not_eq_true, hlt]; exact hl
      rw [this]
      simp only [Bool.not_false, Bool.true_or, if_true]
      rw [if_neg (by intro h; exact hl h.1)]
      exact twoDec_round2 _ ha
  refine ⟨hlt, hded, ?_, ?_, c6_row_deductible, c6_row_ltcg⟩
  · unfold short_term_gain_111A
    by_cases hl : 365 < calculated_holding_days r
    · rw [hlt.mpr hl]
      simp only [if_true, if_pos hl]
      exact twoDec_round2 0 TwoDec.zero
    · have : is_long_term r = false := by
        rw [← Bool.not_eq_true, hlt]; exact hl
      rw [this]
      simp only [Bool.false_eq_true, if_false, if_neg hl]
      exact twoDec_round2 _ (hn.sub ha)
  · unfold ltcg_112A equity_gain_loss
    by_cases hl : 365 < calculated_holding_days r
    · rw [hlt.mpr hl]
      simp only [if_true, if_pos hl]
      exact twoDec_round2 _ (hn.sub (round2_twoDec _))
    · have : is_long_term r = false := by
        rw [← Bool.not_eq_true, hlt]; exact hl
      rw [this]
      simp only [Bool.false_eq_true, if_false, if_neg hl]

/-- Witness for C6: the theorem applied to the grandfathering scenario
row itself. -/
theorem c6_equity_rules_witness :
    TwoDec c6_row.actual_cost_of_acquisition ∧
    TwoDec c6_row.fmv_on_31012018 ∧
    TwoDec c6_row.net_sale_consideration ∧
    cost_of_acquisition_deductible c6_row = 150 ∧ ltcg_112A c6_row = 50 :=
  ⟨⟨10000, by norm_num [c6_row]⟩, ⟨15000, by norm_num [c6_row]⟩,
    ⟨20000, by norm_num [c6_row]⟩,
    (c6_equity_rules c6_row ⟨10000, by norm_num [c6_row]⟩ ⟨15000, by norm_num [c6_row]⟩
      ⟨20000, by norm_num [c6_row]⟩).2.2.2.2⟩

/-- The slab-rate scenario row of the specification: a DEBT_MF_SLAB_RATE
row held 2000 days, net sale 500, actual cost 300, indexed cost 100. -/
def c7_row : CgRow :=
  ⟨TransactionType.debt_mf_slab_rate, 0, 2000, 500, 500, 300, 100, 0⟩

theorem c7_row_short_gain : debt_short_term_gain c7_row = 200 := by
  unfold debt_short_term_gain
  rw [if_pos (show calculated_holding_days c7_row ≤ 1095 ∨
    c7_row.transaction_type = TransactionType.debt_mf_slab_rate from Or.inr rfl)]
  unfold debt_plain_gain
  show round2 ((500 : ℚ) - 300) = 200
  have : (500 : ℚ) - 300 = 200 := by norm_num
  rw [this]
  exact twoDec_round2 200 ⟨20000, by norm_num⟩

theorem c7_row_ltcg : debt_ltcg c7_row = 0 := by
  unfold debt_ltcg
  rw [if_neg]
  intro h
  exact h.2 rfl

/-- C7: the non-equity sheet rules, for rows whose money amounts are
whole cents: a slab-rate debt row is always short-term (plain gain,
zero LTCG) whatever the holding period; an indexed-debt or other
non-equity row is short-term with the plain gain exactly when held at
most 1095 days and long-term with the indexed gain exactly when held
longer; on the scenario slab-rate row held 2000 days the short-term gain
is the plain gain 200 and the LTCG 0. -/
theorem c7_non_equity_rules (r : CgRow)
    (hn : TwoDec r.net_sale_consideration)
    (ha : TwoDec r.actual_cost_of_acquisition)
    (hi : TwoDec r.indexed_cost) :
    (r.transaction_type = TransactionType.debt_mf_slab_rate →
      debt_short_term_gain r =
        r.net_sale_consideration - r.actual_cost_of_acquisition ∧
      debt_ltcg r = 0) ∧
    ((r.transaction_type = TransactionType.debt_mf_indexed ∨
        r.transaction_type = TransactionType.other_non_equity) →
      (calculated_holding_days r ≤ 1095 →
        debt_short_term_gain r =
          r.net_sale_consideration - r.actual_cost_of_acquisition ∧
        debt_ltcg r = 0) ∧
      (1095 < calculated_holding_days r →
        debt_short_term_gain r = 0 ∧
        debt_ltcg r = r.net_sale_consideration - r.indexed_cost)) ∧
    debt_short_term_gain c7_row = 200 ∧ debt_ltcg c7_row = 0 := by
  refine ⟨?_, ?_, c7_row_short_gain, c7_row_ltcg⟩
  · intro ht
    constructor
    · unfold debt_short_term_gain
      rw [if_pos (Or.inr ht)]
      exact twoDec_round2 _ (hn.sub ha)
    · unfold debt_ltcg
      rw [if_neg]
      intro h
      exact h.2 ht
  · intro ht
    have hslab : r.transaction_type ≠ TransactionType.debt_mf_slab_rate := by
      rcases ht with h | h <;> rw [h] <;> intro hx <;> exact TransactionType.noConfusion hx
    constructor
    · intro hd
      constructor
      · unfold debt_short_term_gain
        rw [if_pos (Or.inl hd)]
        exact twoDec_round2 _ (hn.sub ha)
      · unfold debt_ltcg
        rw [if_neg]
        intro h
        exact absurd h.1 (not_lt.mpr hd)
    · intro hd
      constructor
      · unfold debt_short_term_gain
        rw [if_neg]
        rintro (h | h)
        · exact absurd hd (not_lt.mpr h)
        · exact hslab h
      · unfold debt_ltcg
        rw [if_pos ⟨hd, hslab⟩]
        exact twoDec_round2 _ (hn.sub hi)

/-- Witness for C7: the theorem applied to the slab-rate scenario row. -/
theorem c7_non_equity_rules_witness :
    TwoDec c7_row.net_sale_consideration ∧
    TwoDec c7_row.actual_cost_of_acquisition ∧
    TwoDec c7_row.indexed_cost ∧
    debt_short_term_gain c7_row = 200 ∧ debt_ltcg c7_row = 0 :=
  ⟨⟨50000, by norm_num [c7_row]⟩, ⟨30000, by norm_num [c7_row]⟩,
    ⟨10000, by norm_num [c7_row]⟩,
    (c7_non_equity_rules c7_row ⟨50000, by norm_num [c7_row]⟩
      ⟨30000, by norm_num [c7_row]⟩ ⟨10000, by norm_num [c7_row]⟩).2.2⟩

/-- A VDA row sold at a loss: sale consideration 50, actual cost 80. -/
def c8_row : CgRow := ⟨TransactionType.vda, 0, 10, 50, 0, 80, 0, 0⟩

/-- C8: the VDA income is non-negative for every row, equals
max(0, sale - actual cost) whenever the two amounts are whole cents, and
is floored to exactly 0 on the concrete loss-making row. -/
theorem c8_vda_income_floor :
    (∀ r : CgRow, 0 ≤ vda_income r) ∧
    (∀ r : CgRow, TwoDec r.sale_consideration →
      TwoDec r.actual_cost_of_acquisition →
      vda_income r =
        max 0 (r.sale_consideration - r.actual_cost_of_acquisition)) ∧
    vda_income c8_row = 0 := by
  have hval : ∀ r : CgRow, TwoDec r.sale_consideration →
      TwoDec r.actual_cost_of_acquisition →
      vda_income r =
        max 0 (r.sale_consideration - r.actual_cost_of_acquisition) := by
    intro r hs ha
    unfold vda_income
    rw [twoDec_round2 _ (hs.sub ha), max_comm]
  refine ⟨fun r => le_max_right _ _, hval, ?_⟩
  rw [hval c8_row ⟨5000, by norm_num [c8_row]⟩ ⟨8000, by norm_num [c8_row]⟩]
  show max 0 ((50 : ℚ) - 80) = 0
  rw [max_eq_left (by norm_num)]

/-- Witness for C8: the theorem applied to the loss-making row. -/
theorem c8_vda_income_floor_witness :
    TwoDec c8_row.sale_consideration ∧ TwoDec c8_row.actual_cost_of_acquisition ∧
    0 ≤ vda_income c8_row ∧
    vda_income c8_row =
      max 0 (c8_row.sale_consideration - c8_row.actual_cost_of_acquisition) :=
  ⟨⟨5000, by norm_num [c8_row]⟩, ⟨8000, by norm_num [c8_row]⟩,
    c8_vda_income_floor.1 c8_row,
    c8_vda_income_floor.2.1 c8_row ⟨5000, by norm_num [c8_row]⟩
      ⟨8000, by norm_num [c8_row]⟩⟩

/-- One step of the numeric-coercion loop of generate_excel_report. -/
def cgStep (d : DF) (c : String) : DF :=
  if (getCells? d.cols c).isSome then ⟨mapCellsNamed c coerceFill0 d.cols⟩ else d

/-- The numeric-coercion fold of generate_excel_report over an arbitrary
column-name list. -/
def cgFoldCols (l : List String) (df : DF) : DF := l.foldl cgStep df

theorem cgCoerceNumeric_eq_fold (df : DF) :
    cgCoerceNumeric df = cgFoldCols cg_numeric_cols df := rfl

theorem cgStep_getCol_ne (d : DF) (c t : String) (h : t ≠ c) :
    (cgStep d c).getCol? t = d.getCol? t := by
  unfold cgStep
  by_cases hp : (getCells? d.cols c).isSome = true
  · rw [if_pos hp]
    exact getCells_mapCellsNamed_ne c t coerceFill0 h d.cols
  · rw [if_neg hp]

theorem cgStep_getCol_self (d : DF) (c : String) :
    (cgStep d c).getCol? c = (d.getCol? c).map (List.map coerceFill0) := by
  unfold cgStep
  by_cases hp : (getCells? d.cols c).isSome = true
  · rw [if_pos hp]
    exact getCells_mapCellsNamed_self c coerceFill0 d.cols
  · rw [if_neg hp]
    have hnone : getCells? d.cols c = none := by
      cases h : getCells? d.cols c with
      | none => rfl
      | some x => rw [h] at hp; simp at hp
    show getCells? d.cols c = (getCells? d.cols c).map (List.map coerceFill0)
    rw [hnone]
    rfl

theorem cgFoldCols_not_mem (t : String) :
    ∀ l : List String, t ∉ l → ∀ df : DF,
      (cgFoldCols l df).getCol? t = df.getCol? t := by
  intro l
  induction l with
  | nil => intro _ df; rfl
  | cons c cs ih =>
    intro hnm df
    have hct : t ≠ c := by intro h; exact hnm (by rw [h]; exact List.mem_cons_self c cs)
    have hcs : t ∉ cs := fun h => hnm (List.mem_cons_of_mem c h)
    show (cgFoldCols cs (cgStep df c)).getCol? t = _
    rw [ih hcs (cgStep df c)]
    exact cgStep_getCol_ne df c t hct

theorem cgFoldCols_getCol (t : String) :
    ∀ l : List String, l.Nodup → t ∈ l → ∀ df : DF,
      (cgFoldCols l df).getCol? t = (df.getCol? t).map (List.map coerceFill0) := by
  intro l
  induction l with
  | nil => intro _ ht; simp at ht
  | cons c cs ih =>
    intro hnd ht df
    by_cases hct : c = t
    · subst hct
      have hnotin : c ∉ cs := (List.nodup_cons.mp hnd).1
      show (cgFoldCols cs (cgStep df c)).getCol? c = _
      rw [cgFoldCols_not_mem c cs hnotin (cgStep df c)]
      exact cgStep_getCol_self df c
    · have hts : t ∈ cs := by
        rcases List.mem_cons.mp ht with h | h
        · exact absurd h.symm hct
        · exact h
      have hnd2 : cs.Nodup := (List.nodup_cons.mp hnd).2
      show (cgFoldCols cs (cgStep df c)).getCol? t = _
      rw [ih hnd2 hts (cgStep df c), cgStep_getCol_ne df c t (fun h => hct h.symm)]

/-- C5 counterexample: in the capital-gains path the cost column
Actual_Cost_of_Acquisition is coerced with fillna(0), so a missing cost
becomes 0 and not a missing marker, contradicting the claim that cost
columns never default to 0. -/
theorem c5_counterexample :
    (cgCoerceNumeric
        (DF.mk [⟨"Actual_Cost_of_Acquisition", [Cell.missing]⟩])).getCol?
      "Actual_Cost_of_Acquisition" = some [Cell.num 0] ∧
    Cell.num 0 ≠ Cell.missing := ⟨by decide, by decide⟩

/-- C5 as amended: in the bank-statement pass the amount columns
WithdrawalAmount and DepositAmount default non-convertible or missing
values to 0 while ClosingBalance keeps the explicit missing marker that
blocks reconciliation; in the capital-gains path, however, every listed
numeric column -- the cost columns Actual_Cost_of_Acquisition and
Indexed_Cost included -- is coerced with the 0 default. -/
theorem c5_coercion_defaults (df : DF) (hg : Good df) :
    (validate_and_correct_balances df).getCol? "WithdrawalAmount" =
      some (((getCells? (shiftRepair df).cols "WithdrawalAmount").getD []).map
        coerceFill0) ∧
    (validate_and_correct_balances df).getCol? "DepositAmount" =
      some (((getCells? (shiftRepair df).cols "DepositAmount").getD []).map
        coerceFill0) ∧
    (validate_and_correct_balances df).getCol? "ClosingBalance" =
      some (((getCells? (shiftRepair df).cols "ClosingBalance").getD []).map
        coerceNa) ∧
    coerceFill0 Cell.missing = Cell.num 0 ∧
    coerceNa Cell.missing = Cell.missing ∧
    (∀ c : Cell, c.toNum? = none → coerceFill0 c = Cell.num 0 ∧ coerceNa c = Cell.missing) ∧
    (∀ t ∈ cg_numeric_cols, ∀ dg : DF,
      (cgCoerceNumeric dg).getCol? t = (dg.getCol? t).map (List.map coerceFill0)) := by
  refine ⟨validate_w df hg, validate_d df hg, validate_cb df hg, rfl, rfl, ?_, ?_⟩
  · intro c hc
    constructor
    · unfold coerceFill0
      rw [hc]
      rfl
    · unfold coerceNa
      rw [hc]
  · intro t ht dg
    rw [cgCoerceNumeric_eq_fold]
    exact cgFoldCols_getCol t cg_numeric_cols (by decide) ht dg

/-- Witness for C5 at a one-row table whose three columns are all
missing. -/
theorem c5_coercion_defaults_witness :
    Good (DF.mk [⟨"WithdrawalAmount", [Cell.missing]⟩,
      ⟨"DepositAmount", [Cell.missing]⟩, ⟨"ClosingBalance", [Cell.missing]⟩]) ∧
    (validate_and_correct_balances
        (DF.mk [⟨"WithdrawalAmount", [Cell.missing]⟩,
          ⟨"DepositAmount", [Cell.missing]⟩,
          ⟨"ClosingBalance", [Cell.missing]⟩])).getCol? "WithdrawalAmount" =
      some (((getCells? (shiftRepair (DF.mk [⟨"WithdrawalAmount", [Cell.missing]⟩,
          ⟨"DepositAmount", [Cell.missing]⟩,
          ⟨"ClosingBalance", [Cell.missing]⟩])).cols "WithdrawalAmount").getD []).map
        coerceFill0) :=
  ⟨by decide,
    (c5_coercion_defaults (DF.mk [⟨"WithdrawalAmount", [Cell.missing]⟩,
      ⟨"DepositAmount", [Cell.missing]⟩, ⟨"ClosingBalance", [Cell.missing]⟩])
      (by decide)).1⟩

theorem nextAfterCB_split :
    ∀ pre : List Col, ∀ c : Col, ∀ rest : List Col,
      "ClosingBalance" ∉ pre.map Col.name → c.name = "ClosingBalance" →
      nextAfterCB (pre ++ c :: rest) = (rest.head?).map Col.name := by
  intro pre
  induction pre with
  | nil =>
    intro c rest _ hc
    simp [nextAfterCB, hc]
  | cons p ps ih =>
    intro c rest h hc
    have hp : ¬p.name = "ClosingBalance" := fun hx => h (by simp [hx])
    have hps : "ClosingBalance" ∉ ps.map Col.name := fun hx => h (by simp [hx])
    simp only [List.cons_append, nextAfterCB, if_neg hp]
    exact ih c rest hps hc

theorem nextAfterCB_mid (pre : List Col) (c d : Col) (r : List Col)
    (hpre : "ClosingBalance" ∉ pre.map Col.name) (hc : c.name = "ClosingBalance") :
    nextAfterCB (pre ++ c :: d :: r) = some d.name := by
  rw [nextAfterCB_split pre c (d :: r) hpre hc]
  rfl

theorem nextAfterCB_none_shift_id (cols : List Col)
    (h : nextAfterCB cols = none) : shiftCols cols = cols := by
  by_cases hcb : "ClosingBalance" ∈ cols.map Col.name
  · obtain ⟨pre, c, rest, hdec, hcname, hpre⟩ := exists_first_split "ClosingBalance" cols hcb
    cases rest with
    | nil => rw [hdec]; exact shiftCols_cb_last pre c hpre
    | cons d r =>
      rw [hdec, nextAfterCB_mid pre c d r hpre hcname] at h
      exact absurd h (by simp)
  · exact shiftCols_no_cb cols hcb

theorem getCells_shiftCols_other (cols : List Col) (t : String)
    (h1 : t ≠ "ClosingBalance")
    (h2 : ∀ nm, nextAfterCB cols = some nm → t ≠ nm) :
    getCells? (shiftCols cols) t = getCells? cols t := by
  by_cases hcb : "ClosingBalance" ∈ cols.map Col.name
  · obtain ⟨pre, c, rest, hdec, hcname, hpre⟩ := exists_first_split "ClosingBalance" cols hcb
    cases rest with
    | nil => rw [hdec, shiftCols_cb_last pre c hpre]
    | cons d r =>
      have hnext : nextAfterCB cols = some d.name := by
        rw [hdec]; exact nextAfterCB_mid pre c d r hpre hcname
      have htd : t ≠ d.name := h2 d.name hnext
      have hct : ¬c.name = t := by rw [hcname]; exact Ne.symm h1
      have hdt : ¬d.name = t := Ne.symm htd
      rw [hdec, shiftCols_cb_mid pre c d r hpre hcname, List.append_assoc,
        getCells_append t pre (shiftTwo c d ++ r), getCells_append t pre (c :: d :: r)]
      cases hp : getCells? pre t with
      | some x => rfl
      | none =>
        show getCells? (shiftTwo c d ++ r) t = getCells? (c :: d :: r) t
        simp [shiftTwo, getCells?, hct, hdt]
  · rw [shiftCols_no_cb cols hcb]

/-- C10: the frame of the reconciliation pass on its success path, which
works on a copy of the pure input table: the row count is preserved, the
column list is the input one (with Validation Status appended when
absent), every column other than Validation Status, ClosingBalance, the
column immediately after ClosingBalance, WithdrawalAmount and
DepositAmount keeps exactly its input cells in order, and the two amount
columns (when not adjacent to ClosingBalance) change only by the numeric
coercion that defaults missing to 0. -/
theorem c10_frame (df : DF) (hg : Good df) :
    (validate_and_correct_balances df).nRows = df.nRows ∧
    (validate_and_correct_balances df).names =
      (if "Validation Status" ∈ df.names then df.names
       else df.names ++ ["Validation Status"]) ∧
    (∀ t : String, t ≠ "Validation Status" → t ≠ "ClosingBalance" →
      t ≠ "WithdrawalAmount" → t ≠ "DepositAmount" →
      (∀ nm, nextAfterCB df.cols = some nm → t ≠ nm) →
      (validate_and_correct_balances df).getCol? t = df.getCol? t) ∧
    ((∀ nm, nextAfterCB df.cols = some nm → nm ≠ "WithdrawalAmount") →
      (validate_and_correct_balances df).getCol? "WithdrawalAmount" =
        (df.getCol? "WithdrawalAmount").map (List.map coerceFill0)) ∧
    ((∀ nm, nextAfterCB df.cols = some nm → nm ≠ "DepositAmount") →
      (validate_and_correct_balances df).getCol? "DepositAmount" =
        (df.getCol? "DepositAmount").map (List.map coerceFill0)) := by
  refine ⟨validate_nRows df hg, validate_names df hg, ?_, ?_, ?_⟩
  · intro t h1 h2 h3 h4 h5
    rw [validate_other df hg t h1 h2 h3 h4]
    exact getCells_shiftCols_other df.cols t h2 h5
  · intro h5
    obtain ⟨w, hw⟩ := Option.isSome_iff_exists.mp
      ((getCells_isSome_iff "WithdrawalAmount" df.cols).mpr hg.2.2.1)
    have hsh : getCells? (shiftCols df.cols) "WithdrawalAmount" =
        getCells? df.cols "WithdrawalAmount" :=
      getCells_shiftCols_other df.cols "WithdrawalAmount" (by decide)
        (fun nm h => Ne.symm (h5 nm h))
    rw [validate_w df hg]
    unfold wC shiftRepair
    rw [hsh]
    show some (((getCells? df.cols "WithdrawalAmount").getD []).map coerceFill0) =
      (getCells? df.cols "WithdrawalAmount").map (List.map coerceFill0)
    rw [hw]
    rfl
  · intro h5
    obtain ⟨w, hw⟩ := Option.isSome_iff_exists.mp
      ((getCells_isSome_iff "DepositAmount" df.cols).mpr hg.2.2.2.1)
    have hsh : getCells? (shiftCols df.cols) "DepositAmount" =
        getCells? df.cols "DepositAmount" :=
      getCells_shiftCols_other df.cols "DepositAmount" (by decide)
        (fun nm h => Ne.symm (h5 nm h))
    rw [validate_d df hg]
    unfold dC shiftRepair
    rw [hsh]
    show some (((getCells? df.cols "DepositAmount").getD []).map coerceFill0) =
      (getCells? df.cols "DepositAmount").map (List.map coerceFill0)
    rw [hw]
    rfl

/-- The five-column table used to witness the frame property. -/
def c10df : DF :=
  ⟨[⟨"Narration", [Cell.text "salary"]⟩, ⟨"WithdrawalAmount", [Cell.missing]⟩,
    ⟨"DepositAmount", [Cell.num 0]⟩, ⟨"ClosingBalance", [Cell.num 3]⟩,
    ⟨"Unnamed_1", [Cell.missing]⟩]⟩

/-- Witness for C10: the narration column of the concrete table is
untouched and its withdrawal column is exactly the 0-defaulting coercion
of the input column. -/
theorem c10_frame_witness :
    Good c10df ∧
    (validate_and_correct_balances c10df).getCol? "Narration" =
      c10df.getCol? "Narration" ∧
    (validate_and_correct_balances c10df).getCol? "WithdrawalAmount" =
      (c10df.getCol? "WithdrawalAmount").map (List.map coerceFill0) :=
  ⟨by decide,
    (c10_frame c10df (by decide)).2.2.1 "Narration" (by decide) (by decide)
      (by decide) (by decide)
      (fun nm h => by
        have h2 : nextAfterCB c10df.cols = some "Unnamed_1" := rfl
        rw [h2] at h
        rw [← Option.some.inj h]
        decide),
    (c10_frame c10df (by decide)).2.2.2.1
      (fun nm h => by
        have h2 : nextAfterCB c10df.cols = some "Unnamed_1" := rfl
        rw [h2] at h
        rw [← Option.some.inj h]
        decide)⟩

/-- A cell that pandas to_numeric leaves intact or keeps missing: numeric
or already missing, i.e. not a non-numeric string. -/
def Cell.clean : Cell → Bool
  | .text _ => false
  | _ => true

/-- The C3 counterexample table: the balance holds a non-numeric string,
so the first run does not shift (the cell is notnull) but coerces it to
missing, and only the second run moves the 5 across and changes the
verdict. -/
def c3t : DF :=
  ⟨[⟨"WithdrawalAmount", [Cell.num 0]⟩, ⟨"DepositAmount", [Cell.num 0]⟩,
    ⟨"ClosingBalance", [Cell.text "abc"]⟩, ⟨"Extra", [Cell.num 5]⟩]⟩

/-- C3 counterexample: re-running the full pass on the already-annotated
output of the first run yields a different annotation column. -/
theorem c3_counterexample :
    (validate_and_correct_balances (validate_and_correct_balances c3t)).getCol?
        "Validation Status" ≠
      (validate_and_correct_balances c3t).getCol? "Validation Status" := by decide

/-- The name-level reading of nextAfterCB. -/
def nextNameCB : List String → Option String
  | [] => none
  | s :: rest => if s = "ClosingBalance" then rest.head? else nextNameCB rest

theorem nextAfterCB_eq_names :
    ∀ cols : List Col, nextAfterCB cols = nextNameCB (cols.map Col.name) := by
  intro cols
  induction cols with
  | nil => rfl
  | cons c cs ih =>
    by_cases h : c.name = "ClosingBalance"
    · simp only [nextAfterCB, nextNameCB, List.map_cons, if_pos h]
      exact (List.head?_map _ _).symm
    · simp only [nextAfterCB, nextNameCB, List.map_cons, if_neg h]
      exact ih

theorem nextNameCB_append (x nm : String) :
    ∀ l : List String, nextNameCB (l ++ [x]) = some nm →
      nextNameCB l = some nm ∨ nm = x := by
  intro l
  induction l with
  | nil =>
    intro h
    by_cases hx : x = "ClosingBalance"
    · simp [nextNameCB, hx] at h
    · simp [nextNameCB, hx] at h
  | cons s rest ih =>
    intro h
    by_cases hs : s = "ClosingBalance"
    · simp only [List.cons_append, nextNameCB, if_pos hs] at h ⊢
      cases rest with
      | nil =>
        simp only [List.nil_append, List.head?] at h
        exact Or.inr (Option.some.inj h).symm
      | cons r rs =>
        simp only [List.cons_append, List.head?] at h ⊢
        exact Or.inl h
    · simp only [List.cons_append, nextNameCB, if_neg hs] at h ⊢
      exact ih h

theorem good_validate (df : DF) (hg : Good df) :
    Good (validate_and_correct_balances df) := by
  have hnames := validate_names df hg
  refine ⟨?_, ?_, ?_, ?_, ?_, ?_⟩
  · have h1 := validate_colsRect df hg
    rw [← validate_nRows df hg] at h1
    exact h1
  · rw [hnames]
    by_cases hm : "Validation Status" ∈ df.names
    · rw [if_pos hm]; exact hg.2.1
    · rw [if_neg hm]
      refine List.Nodup.append hg.2.1 (List.nodup_singleton _) ?_
      intro x hx hy
      rw [List.mem_singleton] at hy
      subst hy
      exact hm hx
  · rw [hnames]
    by_cases hm : "Validation Status" ∈ df.names
    · rw [if_pos hm]; exact hg.2.2.1
    · rw [if_neg hm]; exact List.mem_append_left _ hg.2.2.1
  · rw [hnames]
    by_cases hm : "Validation Status" ∈ df.names
    · rw [if_pos hm]; exact hg.2.2.2.1
    · rw [if_neg hm]; exact List.mem_append_left _ hg.2.2.2.1
  · rw [hnames]
    by_cases hm : "Validation Status" ∈ df.names
    · rw [if_pos hm]; exact hg.2.2.2.2.1
    · rw [if_neg hm]; exact List.mem_append_left _ hg.2.2.2.2.1
  · rw [validate_nRows df hg]; exact hg.2.2.2.2.2

theorem nextAfterCB_validate (df : DF) (hg : Good df) (nm : String)
    (h : nextAfterCB (validate_and_correct_balances df).cols = some nm) :
    nextAfterCB df.cols = some nm ∨ nm = "Validation Status" := by
  rw [nextAfterCB_eq_names] at h
  have hvn : (validate_and_correct_balances df).cols.map Col.name =
      (if "Validation Status" ∈ df.names then df.names
       else df.names ++ ["Validation Status"]) := validate_names df hg
  rw [hvn] at h
  rw [nextAfterCB_eq_names]
  show nextNameCB df.names = some nm ∨ nm = "Validation Status"
  by_cases hm : "Validation Status" ∈ df.names
  · rw [if_pos hm] at h
    exact Or.inl h
  · rw [if_neg hm] at h
    exact nextNameCB_append "Validation Status" nm df.names h

theorem statusList_toNum_none (df : DF) (j : ℕ) :
    ((statusList df).getD j Cell.missing).toNum? = none := by
  unfold statusList
  by_cases h : j < df.nRows
  · have hlen : j < ((List.range df.nRows).map
        (fun i => statusCell (rowStatus (cbC df) (wC df) (dC df) i))).length := by
      simpa using h
    rw [List.getD_eq_getElem _ _ hlen]
    simp [statusCell, Cell.toNum?]
  · have hlen : ((List.range df.nRows).map
        (fun i => statusCell (rowStatus (cbC df) (wC df) (dC df) i))).length ≤ j := by
      simpa using not_lt.mp h
    rw [List.getD_eq_default _ _ hlen]
    rfl

theorem toNum_shiftPair_fst (a b : Cell)
    (h : a.isna = true → b.toNum? = none) :
    ((shiftPair a b).1).toNum? = a.toNum? := by
  cases a with
  | missing =>
    cases b with
    | missing => rfl
    | num q => exact absurd (h rfl) (by simp [Cell.toNum?])
    | text s => rfl
  | num q => rfl
  | text s => rfl

theorem shiftPair_snd_none (a b : Cell) (hcl : a.clean = true)
    (h : ((shiftPair a b).1).toNum? = none) :
    ((shiftPair a b).2).toNum? = none := by
  cases a with
  | text s => simp [Cell.clean] at hcl
  | num q => exact absurd h (by simp [shiftPair, Cell.isna, Cell.toNum?])
  | missing =>
    cases b with
    | missing => rfl
    | text s => rfl
    | num q => exact absurd h (by simp [shiftPair, Cell.isna, Cell.toNum?])

theorem getD_mem {α : Type} (d : α) :
    ∀ (l : List α) (i : ℕ), i < l.length → l.getD i d ∈ l := by
  intro l
  induction l with
  | nil => intro i h; simp at h
  | cons a as ih =>
    intro i h
    cases i with
    | zero => rw [List.getD_cons_zero]; exact List.mem_cons_self a as
    | succ n =>
      rw [List.getD_cons_succ]
      exact List.mem_cons_of_mem _ (ih n (by simpa using h))

theorem getCells_split_snd (cols pre : List Col) (c d : Col) (r : List Col)
    (hdec : cols = pre ++ c :: d :: r) (hnd : (cols.map Col.name).Nodup) :
    getCells? cols d.name = some d.cells := by
  subst hdec
  rw [List.map_append] at hnd
  rw [getCells_append]
  have hdisj := (List.nodup_append.mp hnd).2.2
  have hdpre : d.name ∉ pre.map Col.name := by
    intro hx
    exact hdisj hx (by simp)
  rw [(getCells_eq_none_iff _ _).mpr hdpre]
  have hdc : ¬c.name = d.name := by
    have h2 := (List.nodup_append.mp hnd).2.1
    simp only [List.map_cons, List.nodup_cons] at h2
    intro hx
    exact h2.1 (by rw [hx]; simp)
  show getCells? (c :: d :: r) d.name = some d.cells
  simp [getCells?, hdc]

theorem wQ_validate (df : DF) (hg : Good df)
    (hnx : ∀ nm, nextAfterCB df.cols = some nm → nm ≠ "WithdrawalAmount") (j : ℕ) :
    wQ (validate_and_correct_balances df) j = wQ df j := by
  have hVnext : ∀ nm, nextAfterCB (validate_and_correct_balances df).cols = some nm →
      "WithdrawalAmount" ≠ nm := by
    intro nm h
    rcases nextAfterCB_validate df hg nm h with h1 | h1
    · exact Ne.symm (hnx nm h1)
    · rw [h1]; decide
  have hsh := getCells_shiftCols_other (validate_and_correct_balances df).cols
    "WithdrawalAmount" (by decide) hVnext
  unfold wQ shiftedCell
  rw [show (shiftRepair (validate_and_correct_balances df)).cols =
    shiftCols (validate_and_correct_balances df).cols from rfl, hsh,
    show getCells? (validate_and_correct_balances df).cols "WithdrawalAmount" =
      (validate_and_correct_balances df).getCol? "WithdrawalAmount" from rfl,
    validate_w df hg]
  show (((wC df).getD j Cell.missing).toNum?).getD 0 = _
  exact wC_val df j

theorem dQ_validate (df : DF) (hg : Good df)
    (hnx : ∀ nm, nextAfterCB df.cols = some nm → nm ≠ "DepositAmount") (j : ℕ) :
    dQ (validate_and_correct_balances df) j = dQ df j := by
  have hVnext : ∀ nm, nextAfterCB (validate_and_correct_balances df).cols = some nm →
      "DepositAmount" ≠ nm := by
    intro nm h
    rcases nextAfterCB_validate df hg nm h with h1 | h1
    · exact Ne.symm (hnx nm h1)
    · rw [h1]; decide
  have hsh := getCells_shiftCols_other (validate_and_correct_balances df).cols
    "DepositAmount" (by decide) hVnext
  unfold dQ shiftedCell
  rw [show (shiftRepair (validate_and_correct_balances df)).cols =
    shiftCols (validate_and_correct_balances df).cols from rfl, hsh,
    show getCells? (validate_and_correct_balances df).cols "DepositAmount" =
      (validate_and_correct_balances df).getCol? "DepositAmount" from rfl,
    validate_d df hg]
  show (((dC df).getD j Cell.missing).toNum?).getD 0 = _
  exact dC_val df j

theorem cbQ_validate (df : DF) (hg : Good df)
    (hclean : ∀ c ∈ (df.getCol? "ClosingBalance").getD [], c.clean = true)
    (hnx : ∀ nm, nextAfterCB df.cols = some nm →
      nm ≠ "WithdrawalAmount" ∧ nm ≠ "DepositAmount") (j : ℕ) :
    cbQ (validate_and_correct_balances df) j = cbQ df j := by
  have hbase : ((cbC df).getD j Cell.missing).toNum? = cbQ df j := by
    rw [cbC_getD df j, toNum_coerceNa]
    rfl
  cases hnv : nextAfterCB (validate_and_correct_balances df).cols with
  | none =>
    have hid := nextAfterCB_none_shift_id _ hnv
    unfold cbQ shiftedCell
    rw [show (shiftRepair (validate_and_correct_balances df)).cols =
      shiftCols (validate_and_correct_balances df).cols from rfl, hid,
      show getCells? (validate_and_correct_balances df).cols "ClosingBalance" =
        (validate_and_correct_balances df).getCol? "ClosingBalance" from rfl,
      validate_cb df hg]
    exact hbase
  | some nm =>
    have hVg : Good (validate_and_correct_balances df) := good_validate df hg
    have hCBV : "ClosingBalance" ∈ (validate_and_correct_balances df).cols.map Col.name :=
      hVg.2.2.2.2.1
    obtain ⟨pre, c, rest, hdec, hcname, hpre⟩ :=
      exists_first_split "ClosingBalance" (validate_and_correct_balances df).cols hCBV
    have hnext2 : (rest.head?).map Col.name = some nm := by
      rw [← nextAfterCB_split pre c rest hpre hcname, ← hdec]
      exact hnv
    cases rest with
    | nil => simp at hnext2
    | cons d r =>
      have hdname : d.name = nm := by simpa using hnext2
      have hccells : c.cells = cbC df := by
        have h1 : getCells? (validate_and_correct_balances df).cols "ClosingBalance" =
            some c.cells := by
          rw [hdec, getCells_append, (getCells_eq_none_iff _ _).mpr hpre]
          show getCells? (c :: d :: r) "ClosingBalance" = some c.cells
          simp [getCells?, hcname]
        have h2 := validate_cb df hg
        rw [DF.getCol?, h1] at h2
        exact Option.some.inj h2
      have hdcells : getCells? (validate_and_correct_balances df).cols d.name =
          some d.cells :=
        getCells_split_snd _ pre c d r hdec hVg.2.1
      have hshape : getCells? (shiftCols (validate_and_correct_balances df).cols)
          "ClosingBalance" =
          some (List.zipWith (fun a b => (shiftPair a b).1) c.cells d.cells) := by
        rw [hdec, shiftCols_cb_mid pre c d r hpre hcname, List.append_assoc,
          getCells_append, (getCells_eq_none_iff _ _).mpr hpre]
        show getCells? (shiftTwo c d ++ r) "ClosingBalance" = _
        simp [shiftTwo, getCells?, hcname]
      have hlc : c.cells.length = df.nRows := by
        have h3 := hVg.1 c (by
          rw [hdec]; exact List.mem_append_right _ (List.mem_cons_self _ _))
        rw [validate_nRows df hg] at h3
        exact h3
      have hld : d.cells.length = df.nRows := by
        have h3 := hVg.1 d (by
          rw [hdec]
          exact List.mem_append_right _ (List.mem_cons_of_mem _ (List.mem_cons_self _ _)))
        rw [validate_nRows df hg] at h3
        exact h3
      unfold cbQ shiftedCell
      rw [show (shiftRepair (validate_and_correct_balances df)).cols =
        shiftCols (validate_and_correct_balances df).cols from rfl, hshape]
      show ((List.zipWith (fun a b => (shiftPair a b).1) c.cells d.cells).getD j
        Cell.missing).toNum? = cbQ df j
      by_cases hj : j < df.nRows
      · rw [getD_zipWith (fun a b => (shiftPair a b).1) Cell.missing Cell.missing
          Cell.missing c.cells d.cells j (by rw [hlc]; exact hj) (by rw [hld]; exact hj),
          ← hbase, hccells]
        apply toNum_shiftPair_fst
        intro hisna
        by_cases hVS : nm = "Validation Status"
        · have hvs := validate_VS df hg
          rw [DF.getCol?] at hvs
          rw [hdname, hVS] at hdcells
          rw [hdcells] at hvs
          have hdlist : d.cells = statusList df := Option.some.inj hvs
          rw [hdlist]
          exact statusList_toNum_none df j
        · have hnm_df : nextAfterCB df.cols = some nm := by
            rcases nextAfterCB_validate df hg nm hnv with h1 | h1
            · exact h1
            · exact absurd h1 hVS
          have hnmW := (hnx nm hnm_df).1
          have hnmD := (hnx nm hnm_df).2
          have hnmCB : nm ≠ "ClosingBalance" := by
            rw [← hdname]
            intro hx
            have hnd := hVg.2.1
            rw [show (validate_and_correct_balances df).names =
              (validate_and_correct_balances df).cols.map Col.name from rfl, hdec,
              List.map_append, List.map_cons, List.map_cons] at hnd
            have h4 := (List.nodup_append.mp hnd).2.1
            rw [List.nodup_cons] at h4
            exact h4.1 (by rw [hcname, ← hx]; exact List.mem_cons_self _ _)
          have hother := validate_other df hg nm hVS hnmCB hnmW hnmD
          obtain ⟨pre0, c0, rest0, hdec0, hcname0, hpre0⟩ :=
            exists_first_split "ClosingBalance" df.cols hg.2.2.2.2.1
          have hnext0 : (rest0.head?).map Col.name = some nm := by
            rw [← nextAfterCB_split pre0 c0 rest0 hpre0 hcname0, ← hdec0]
            exact hnm_df
          cases rest0 with
          | nil => simp at hnext0
          | cons d0 r0 =>
            have hd0name : d0.name = nm := by simpa using hnext0
            have hnmpre0 : nm ∉ pre0.map Col.name := by
              have hnd0 := hg.2.1
              rw [show df.names = df.cols.map Col.name from rfl, hdec0,
                List.map_append] at hnd0
              have hdisj := (List.nodup_append.mp hnd0).2.2
              intro hx
              exact hdisj hx (by rw [← hd0name]; simp)
            have hc0nm : ¬c0.name = nm := by rw [hcname0]; exact Ne.symm hnmCB
            have hshape0 : getCells? (shiftCols df.cols) nm =
                some (List.zipWith (fun a b => (shiftPair a b).2) c0.cells d0.cells) := by
              rw [hdec0, shiftCols_cb_mid pre0 c0 d0 r0 hpre0 hcname0, List.append_assoc,
                getCells_append, (getCells_eq_none_iff _ _).mpr hnmpre0]
              show getCells? (shiftTwo c0 d0 ++ r0) nm = _
              simp [shiftTwo, getCells?, hc0nm, hd0name]
            have hdcells2 : d.cells =
                List.zipWith (fun a b => (shiftPair a b).2) c0.cells d0.cells := by
              rw [hdname] at hdcells
              rw [show getCells? (validate_and_correct_balances df).cols nm =
                (validate_and_correct_balances df).getCol? nm from rfl] at hdcells
              rw [hother, hshape0] at hdcells
              exact (Option.some.inj hdcells).symm
            have hcbC0 : cbC df =
                (List.zipWith (fun a b => (shiftPair a b).1) c0.cells d0.cells).map
                  coerceNa := by
              unfold cbC
              rw [show (shiftRepair df).cols = shiftCols df.cols from rfl, hdec0,
                shiftCols_cb_mid pre0 c0 d0 r0 hpre0 hcname0, List.append_assoc,
                getCells_append, (getCells_eq_none_iff _ _).mpr hpre0]
              show (((getCells? (shiftTwo c0 d0 ++ r0) "ClosingBalance").getD []).map
                coerceNa) = _
              simp [shiftTwo, getCells?, hcname0]
            have hlc0 : c0.cells.length = df.nRows := hg.1 c0 (by
              rw [hdec0]; exact List.mem_append_right _ (List.mem_cons_self _ _))
            have hld0 : d0.cells.length = df.nRows := hg.1 d0 (by
              rw [hdec0]
              exact List.mem_append_right _ (List.mem_cons_of_mem _ (List.mem_cons_self _ _)))
            have hfst : ((List.zipWith (fun a b => (shiftPair a b).1) c0.cells
                d0.cells).getD j Cell.missing).toNum? = none := by
              have h5 : (cbC df).getD j Cell.missing =
                  coerceNa ((List.zipWith (fun a b => (shiftPair a b).1) c0.cells
                    d0.cells).getD j Cell.missing) := by
                rw [hcbC0]
                exact getD_map_of_default coerceNa Cell.missing _ j
              rw [h5] at hisna
              cases hx : (List.zipWith (fun a b => (shiftPair a b).1) c0.cells
                  d0.cells).getD j Cell.missing with
              | missing => rfl
              | num q => rw [hx] at hisna; simp [coerceNa, Cell.toNum?, Cell.isna] at hisna
              | text s => rfl
            rw [hdcells2]
            rw [getD_zipWith (fun a b => (shiftPair a b).2) Cell.missing Cell.missing
              Cell.missing c0.cells d0.cells j (by rw [hlc0]; exact hj)
              (by rw [hld0]; exact hj)]
            rw [getD_zipWith (fun a b => (shiftPair a b).1) Cell.missing Cell.missing
              Cell.missing c0.cells d0.cells j (by rw [hlc0]; exact hj)
              (by rw [hld0]; exact hj)] at hfst
            apply shiftPair_snd_none
            · apply hclean
              have h6 : df.getCol? "ClosingBalance" = some c0.cells := by
                rw [DF.getCol?, hdec0, getCells_append,
                  (getCells_eq_none_iff _ _).mpr hpre0]
                show getCells? (c0 :: d0 :: r0) "ClosingBalance" = some c0.cells
                simp [getCells?, hcname0]
              rw [h6]
              exact getD_mem Cell.missing c0.cells j (by rw [hlc0]; exact hj)
            · exact hfst
      · have hmin : (List.zipWith (fun a b => (shiftPair a b).1) c.cells
            d.cells).length ≤ j := by
          rw [List.length_zipWith, hlc, hld, min_self]
          exact not_lt.mp hj
        rw [List.getD_eq_default _ _ hmin, ← hbase]
        have hcb_len : (cbC df).length ≤ j := by
          rw [← hccells, hlc]
          exact not_lt.mp hj
        rw [List.getD_eq_default _ _ hcb_len]

/-- C3 as amended: the reconciliation pass is idempotent on the
annotations provided the input balance column holds no non-numeric
string (every cell numeric or missing, as in an already-coerced table)
and the column directly after ClosingBalance, when there is one, is not
one of the fillna(0) amount columns: under these conditions re-running
the full pass on the annotated output reproduces the annotation column
exactly. -/
theorem c3_idempotent_on_clean (df : DF) (hg : Good df)
    (hclean : ∀ c ∈ (df.getCol? "ClosingBalance").getD [], c.clean = true)
    (hnx : ∀ nm, nextAfterCB df.cols = some nm →
      nm ≠ "WithdrawalAmount" ∧ nm ≠ "DepositAmount") :
    (validate_and_correct_balances
        (validate_and_correct_balances df)).getCol? "Validation Status" =
      (validate_and_correct_balances df).getCol? "Validation Status" := by
  have hVg := good_validate df hg
  have href : ∀ i, refVerdictAt (validate_and_correct_balances df) i =
      refVerdictAt df i := by
    intro i
    cases i with
    | zero =>
      unfold refVerdictAt
      rw [cbQ_validate df hg hclean hnx 0]
    | succ k =>
      show refVerdictStep (cbQ (validate_and_correct_balances df) k)
          (cbQ (validate_and_correct_balances df) (k + 1))
          (wQ (validate_and_correct_balances df) (k + 1))
          (dQ (validate_and_correct_balances df) (k + 1)) =
        refVerdictStep (cbQ df k) (cbQ df (k + 1)) (wQ df (k + 1)) (dQ df (k + 1))
      rw [cbQ_validate df hg hclean hnx k, cbQ_validate df hg hclean hnx (k + 1),
        wQ_validate df hg (fun nm h => (hnx nm h).1) (k + 1),
        dQ_validate df hg (fun nm h => (hnx nm h).2) (k + 1)]
  rw [validate_VS (validate_and_correct_balances df) hVg, validate_VS df hg,
    statusList_eq_ref, statusList_eq_ref, validate_nRows df hg]
  simp only [href]

/-- Witness for the amended C3 at a one-row table whose balance column
is missing (numeric-or-missing) and has no column after it. -/
theorem c3_idempotent_on_clean_witness :
    Good (DF.mk [⟨"WithdrawalAmount", [Cell.num 0]⟩, ⟨"DepositAmount", [Cell.num 0]⟩,
        ⟨"ClosingBalance", [Cell.missing]⟩]) ∧
    (∀ c ∈ ((DF.mk [⟨"WithdrawalAmount", [Cell.num 0]⟩, ⟨"DepositAmount", [Cell.num 0]⟩,
        ⟨"ClosingBalance", [Cell.missing]⟩]).getCol? "ClosingBalance").getD [],
      c.clean = true) ∧
    (validate_and_correct_balances (validate_and_correct_balances
        (DF.mk [⟨"WithdrawalAmount", [Cell.num 0]⟩, ⟨"DepositAmount", [Cell.num 0]⟩,
          ⟨"ClosingBalance", [Cell.missing]⟩]))).getCol? "Validation Status" =
      (validate_and_correct_balances
        (DF.mk [⟨"WithdrawalAmount", [Cell.num 0]⟩, ⟨"DepositAmount", [Cell.num 0]⟩,
          ⟨"ClosingBalance", [Cell.missing]⟩])).getCol? "Validation Status" :=
  ⟨by decide, by decide,
    c3_idempotent_on_clean
      (DF.mk [⟨"WithdrawalAmount", [Cell.num 0]⟩, ⟨"DepositAmount", [Cell.num 0]⟩,
        ⟨"ClosingBalance", [Cell.missing]⟩])
      (by decide) (by decide) (fun nm h => Option.noConfusion h)⟩
